import Mathlib

/-! # Admin provisioning core of go-kayu

A shallow embedding of `core/auth/admin_user.go` and `core/auth/bootstrap.go`.

The three operations of the Go `service` (`CreateAdminUser`,
`CreateAdminUserWithNewOrganisation`, `BootstrapAdmin`) are translated into
state-passing functions over an arbitrary account store.  Every call to a
collaborator (store primitive or password hasher) is recorded in a call log,
so that "no store call is made" is a statement about the log.
-/

namespace GoKayu

/-! ## Errors -/

/-- Failure taxonomy of the provisioning core (section 7 of the design). -/
inductive Kind where
  | conflict
  | notFound
  | internal
  deriving DecidableEq, Repr

/-- Go `error` values, as far as this package builds and inspects them.
`raised` is an error value produced by a collaborator, `errorf` is
`fmt.Errorf` with no `%w` verb, `wrapf ctx err` is `fmt.Errorf(ctx + ": %w", err)`. -/
inductive Error where
  | raised (kind : Kind) (msg : String)
  | errorf (msg : String)
  | wrapf (ctx : String) (err : Error)
  deriving DecidableEq, Repr

/-- The result of `errors.Unwrap`: the wrapped error, if there is one. -/
def Error.Unwrap : Error → Option Error
  | .wrapf _ err => some err
  | _ => none

/-- The kind an error carries, looked up along the `%w` chain. -/
def Error.kind : Error → Option Kind
  | .raised kind _ => some kind
  | .errorf _ => none
  | .wrapf _ err => err.kind

/-- The text of `err.Error()`. -/
def Error.text : Error → String
  | .raised _ msg => msg
  | .errorf msg => msg
  | .wrapf ctx err => ctx ++ ": " ++ err.text

/-- The error both creation operations build when the email is taken
(`fmt.Errorf("user with email %s already exists", email)`); the design calls
this failure `Conflict`. -/
def errUserExists (email : String) : Error :=
  .errorf ("user with email " ++ email ++ " already exists")

/-! ## Data model (package `model`) and store inputs (package `store`) -/

/-- Modelled from the spec: `model.Account` (section 3), whose declaration is
not part of the sources at hand. -/
structure Account where
  ID : String
  Name : String
  FirstName : String
  LastName : String
  deriving DecidableEq, Repr

/-- Modelled from the spec: `model.LoginCredentials` (section 3). -/
structure LoginCredentials where
  AccountID : String
  Provider : String
  ProviderUserID : String
  Email : String
  Password : String
  deriving DecidableEq, Repr

/-- Modelled from the spec: `model.Organisation` (section 3).  `Description`
and `Avatar` are Go pointers; `none` is the nil pointer.  An empty `OwnerID`
is the ownerless state. -/
structure Organisation where
  ID : String
  Name : String
  Description : Option String
  Avatar : Option String
  OwnerID : String
  deriving DecidableEq, Repr

/-- Modelled from the spec: `model.AccountRole` (section 3), the membership
relation between an account, an organisation and a role. -/
structure AccountRole where
  OrganisationID : String
  AccountID : String
  Role : String
  deriving DecidableEq, Repr

/-- Modelled from the spec: the constant `model.AuthProviderUsernamePassword`
(password-based authentication); its value is not in the sources at hand. -/
def AuthProviderUsernamePassword : String := "username_password"

/-- Modelled from the spec: the constant `model.RoleAdmin`. -/
def RoleAdmin : String := "admin"

/-- Modelled from the spec: the role granted by the create-owner-account
primitive in the organisation it mints. -/
def RoleOwner : String := "owner"

/-- The fields of `store.CreateOwnerAccountInput` set in this package. -/
structure CreateOwnerAccountInput where
  Name : String
  FirstName : String
  LastName : String
  Provider : String
  Email : String
  Password : String
  ProviderUserID : String
  deriving DecidableEq, Repr

/-- The fields of `store.AddOrganisationMemberInput`. -/
structure AddOrganisationMemberInput where
  OrganisationID : String
  AccountID : String
  Role : String
  deriving DecidableEq, Repr

/-- The fields of `store.CreateOrganisationInput`. -/
structure CreateOrganisationInput where
  Name : String
  OwnerID : String
  Description : Option String
  Avatar : Option String
  deriving DecidableEq, Repr

/-- The fields of `store.UpdateOrganisationInput` set in this package; `Name`
is a pointer. -/
structure UpdateOrganisationInput where
  ID : String
  Name : Option String
  deriving DecidableEq, Repr

/-- The four values `CreateOwnerAccount` returns on success. -/
structure OwnerAccount where
  account : Account
  org : Organisation
  credentials : LoginCredentials
  accountRole : AccountRole
  deriving DecidableEq, Repr

/-! ## Collaborators -/

/-- The store primitives this package calls (section 6), over an arbitrary
store state `σ`.  Queries read the state; mutators return the next state on
success and leave the state alone on failure. -/
structure Store (σ : Type) where
  LoginCredentialsUserEmailExists : σ → String → Except Error Bool
  GetOrganisation : σ → String → Except Error Organisation
  CreateOwnerAccount : σ → CreateOwnerAccountInput → Except Error (OwnerAccount × σ)
  AddOrganisationMember : σ → AddOrganisationMemberInput → Except Error (AccountRole × σ)
  CreateOrganisation : σ → CreateOrganisationInput → Except Error (Organisation × σ)
  ListOrganisationMembers : σ → String → Except Error (List AccountRole)
  UpdateOrganisation : σ → UpdateOrganisationInput → Except Error (Organisation × σ)

/-- Modelled from the spec: `config.OAuth2ProviderConfig`, which is declared
outside the sources at hand; only its name is known and no field of it is
read here. -/
structure OAuth2ProviderConfig where
  deriving DecidableEq, Repr

/-- The fields of `config.Config` read by this development.  The map
`Oauth2AuthProviders` is kept as its list of entries. -/
structure Config where
  Environment : String
  EncryptionKey : String
  BootstrapAdminEmail : String
  BootstrapAdminPassword : String
  BootstrapAdminName : String
  BootstrapAdminOrgName : String
  Oauth2AuthProviders : List (String × OAuth2ProviderConfig) := []
  deriving DecidableEq, Repr

/-- The Go `service`: its store, its password hasher and its configuration. -/
structure service (σ : Type) where
  store : Store σ
  hashPassword : String → Except Error String
  cfg : Config

/-- One call to a collaborator, with the arguments it was given. -/
inductive Call where
  | LoginCredentialsUserEmailExists (email : String)
  | hashPassword (password : String)
  | GetOrganisation (id : String)
  | CreateOwnerAccount (input : CreateOwnerAccountInput)
  | AddOrganisationMember (input : AddOrganisationMemberInput)
  | CreateOrganisation (input : CreateOrganisationInput)
  | ListOrganisationMembers (id : String)
  | UpdateOrganisation (input : UpdateOrganisationInput)
  deriving DecidableEq, Repr

/-- What running an operation yields: the Go return values (`res`), the store
state it leaves behind (`st`) and the collaborator calls it made, oldest
first (`log`). -/
structure Outcome (σ α : Type) where
  res : Except Error α
  st : σ
  log : List Call

/-! ## `admin_user.go` -/

/-- The member-transfer loop of `CreateAdminUser` (lines 159-180): every listed
member other than the new account is added to the new organisation with the
role it had; the first failure ends the loop. -/
def transferMembers {σ : Type} (s : service σ) (accountID newOrgID : String) :
    List AccountRole → σ → Outcome σ Unit
  | [], st => ⟨.ok (), st, []⟩
  | member :: rest, st =>
    if member.AccountID ≠ accountID then
      let input : AddOrganisationMemberInput :=
        { OrganisationID := newOrgID, AccountID := member.AccountID, Role := member.Role }
      match s.store.AddOrganisationMember st input with
      | .error err =>
        ⟨.error (.wrapf "failed to transfer member to new organization" err), st,
          [.AddOrganisationMember input]⟩
      | .ok (_, st1) =>
        let r := transferMembers s accountID newOrgID rest st1
        ⟨r.res, r.st, .AddOrganisationMember input :: r.log⟩
    else transferMembers s accountID newOrgID rest st

/-- The Go method `CreateAdminUser` creates a new user with admin role in a specified
organization. -/
def CreateAdminUser {σ : Type} (s : service σ)
    (email password firstName lastName organisationID : String) (st : σ) :
    Outcome σ Account :=
  let c1 := Call.LoginCredentialsUserEmailExists email
  match s.store.LoginCredentialsUserEmailExists st email with
  | .error err => ⟨.error (.wrapf "error checking if user exists" err), st, [c1]⟩
  | .ok true => ⟨.error (errUserExists email), st, [c1]⟩
  | .ok false =>
  let c2 := Call.hashPassword password
  match s.hashPassword password with
  | .error err => ⟨.error (.wrapf "failed to hash password" err), st, [c1, c2]⟩
  | .ok hashedPassword =>
  let c3 := Call.GetOrganisation organisationID
  match s.store.GetOrganisation st organisationID with
  | .error err => ⟨.error (.wrapf "failed to get organisation" err), st, [c1, c2, c3]⟩
  | .ok org =>
  let fullName := firstName ++ " " ++ lastName
  let ownerInput : CreateOwnerAccountInput :=
    { Name := fullName, FirstName := firstName, LastName := lastName,
      Provider := AuthProviderUsernamePassword, Email := email,
      Password := hashedPassword, ProviderUserID := "" }
  let c4 := Call.CreateOwnerAccount ownerInput
  match s.store.CreateOwnerAccount st ownerInput with
  | .error err => ⟨.error (.wrapf "failed to create admin user" err), st, [c1, c2, c3, c4]⟩
  | .ok (created, st1) =>
  let account := created.account
  if created.accountRole.OrganisationID ≠ organisationID then
    let memberInput : AddOrganisationMemberInput :=
      { OrganisationID := organisationID, AccountID := account.ID, Role := RoleAdmin }
    let c5 := Call.AddOrganisationMember memberInput
    match s.store.AddOrganisationMember st1 memberInput with
    | .error err =>
      ⟨.error (.wrapf "failed to create admin role in organization" err), st1,
        [c1, c2, c3, c4, c5]⟩
    | .ok (_, st2) =>
    if org.OwnerID = "" then
      let createOrgInput : CreateOrganisationInput :=
        { Name := org.Name, OwnerID := account.ID,
          Description := match org.Description with
            | some description => some description
            | none => none,
          Avatar := match org.Avatar with
            | some avatar => some avatar
            | none => none }
      let c6 := Call.CreateOrganisation createOrgInput
      match s.store.CreateOrganisation st2 createOrgInput with
      | .error err =>
        ⟨.error (.wrapf "failed to create organization with new owner" err), st2,
          [c1, c2, c3, c4, c5, c6]⟩
      | .ok (newOrg, st3) =>
      let c7 := Call.ListOrganisationMembers organisationID
      match s.store.ListOrganisationMembers st3 organisationID with
      | .error err =>
        ⟨.error (.wrapf "failed to list organization members" err), st3,
          [c1, c2, c3, c4, c5, c6, c7]⟩
      | .ok members =>
      let r := transferMembers s account.ID newOrg.ID members st3
      match r.res with
      | .error err => ⟨.error err, r.st, [c1, c2, c3, c4, c5, c6, c7] ++ r.log⟩
      | .ok _ => ⟨.ok account, r.st, [c1, c2, c3, c4, c5, c6, c7] ++ r.log⟩
    else ⟨.ok account, st2, [c1, c2, c3, c4, c5]⟩
  else ⟨.ok account, st1, [c1, c2, c3, c4]⟩

/-- The Go method `CreateAdminUserWithNewOrganisation` creates both a new organization and a
user with admin role in that organization. -/
def CreateAdminUserWithNewOrganisation {σ : Type} (s : service σ)
    (email password firstName lastName orgName : String) (st : σ) :
    Outcome σ (Account × Organisation) :=
  let c1 := Call.LoginCredentialsUserEmailExists email
  match s.store.LoginCredentialsUserEmailExists st email with
  | .error err => ⟨.error (.wrapf "error checking if user exists" err), st, [c1]⟩
  | .ok true => ⟨.error (errUserExists email), st, [c1]⟩
  | .ok false =>
  let c2 := Call.hashPassword password
  match s.hashPassword password with
  | .error err => ⟨.error (.wrapf "failed to hash password" err), st, [c1, c2]⟩
  | .ok hashedPassword =>
  let fullName := firstName ++ " " ++ lastName
  let ownerInput : CreateOwnerAccountInput :=
    { Name := fullName, FirstName := firstName, LastName := lastName,
      Provider := AuthProviderUsernamePassword, Email := email,
      Password := hashedPassword, ProviderUserID := "" }
  let c3 := Call.CreateOwnerAccount ownerInput
  match s.store.CreateOwnerAccount st ownerInput with
  | .error err =>
    ⟨.error (.wrapf "failed to create admin user with organization" err), st, [c1, c2, c3]⟩
  | .ok (created, st1) =>
  let account := created.account
  let org := created.org
  if org.Name ≠ orgName then
    let updateInput : UpdateOrganisationInput := { ID := org.ID, Name := some orgName }
    let c4 := Call.UpdateOrganisation updateInput
    match s.store.UpdateOrganisation st1 updateInput with
    | .error err =>
      ⟨.error (.wrapf "failed to update organization name" err), st1, [c1, c2, c3, c4]⟩
    | .ok (_, st2) => ⟨.ok (account, { org with Name := orgName }), st2, [c1, c2, c3, c4]⟩
  else ⟨.ok (account, org), st1, [c1, c2, c3]⟩

/-! ## `bootstrap.go` -/

/-- Go's `unicode.IsSpace`. -/
def isSpace (c : Char) : Bool :=
  c = '\t' || c = '\n' || c.toNat = 0x0B || c.toNat = 0x0C || c = '\r' || c = ' ' ||
  c.toNat = 0x85 || c.toNat = 0xA0 || c.toNat = 0x1680 ||
  (0x2000 ≤ c.toNat && c.toNat ≤ 0x200A) ||
  c.toNat = 0x2028 || c.toNat = 0x2029 || c.toNat = 0x202F || c.toNat = 0x205F ||
  c.toNat = 0x3000

/-- The scan behind `strings.Fields`: `cur` is the field being read, newest
character first. -/
def fieldsAux : List Char → List Char → List (List Char)
  | [], cur => if cur.isEmpty then [] else [cur.reverse]
  | c :: cs, cur =>
    if isSpace c then
      if cur.isEmpty then fieldsAux cs [] else cur.reverse :: fieldsAux cs []
    else fieldsAux cs (c :: cur)

/-- Go's `strings.Fields`: the maximal runs of non-space characters. -/
def Fields (s : String) : List String :=
  (fieldsAux s.data []).map String.mk

/-- Go's `strings.Join`. -/
def Join (elems : List String) (sep : String) : String :=
  sep.intercalate elems

/-- The first and last name `BootstrapAdmin` derives from the configured admin
name (lines 67-85). -/
def bootstrapNames (adminName : String) : String × String :=
  if adminName ≠ "" then
    match Fields adminName with
    | [] => ("Admin", "User")
    | first :: rest => (first, if rest.length > 0 then Join rest " " else "User")
  else ("Admin", "User")

/-- The organisation name `BootstrapAdmin` provisions with (lines 89-93). -/
def bootstrapOrgName (orgName : String) : String :=
  if orgName = "" then "Default Organization" else orgName

/-- The Go method `BootstrapAdmin` checks for and creates a default admin user if one does
not exist. -/
def BootstrapAdmin {σ : Type} (s : service σ) (st : σ) : Outcome σ Unit :=
  let adminEmail := s.cfg.BootstrapAdminEmail
  if adminEmail = "" then ⟨.ok (), st, []⟩
  else
  let c1 := Call.LoginCredentialsUserEmailExists adminEmail
  match s.store.LoginCredentialsUserEmailExists st adminEmail with
  | .error err => ⟨.error err, st, [c1]⟩
  | .ok true => ⟨.ok (), st, [c1]⟩
  | .ok false =>
  let adminPassword := s.cfg.BootstrapAdminPassword
  if adminPassword = "" then ⟨.ok (), st, [c1]⟩
  else
  let adminName := s.cfg.BootstrapAdminName
  let orgName := bootstrapOrgName s.cfg.BootstrapAdminOrgName
  let names := bootstrapNames adminName
  let r := CreateAdminUserWithNewOrganisation s adminEmail adminPassword names.1 names.2 orgName st
  match r.res with
  | .error err => ⟨.error err, r.st, c1 :: r.log⟩
  | .ok _ => ⟨.ok (), r.st, c1 :: r.log⟩

/-! ## Store laws -/

/-- A call to the create-owner-account primitive: one provisioning. -/
def Call.isProvision : Call → Bool
  | .CreateOwnerAccount _ => true
  | _ => false

/-- The store law behind the duplicate-email guarantees: a successful
password-based `CreateOwnerAccount` for an email makes the email-existence
query for that email answer true, and the organisation and membership
primitives leave a registered email registered. -/
structure RegistersEmail {σ : Type} (store : Store σ) : Prop where
  created : ∀ st input created st1,
    input.Provider = AuthProviderUsernamePassword →
    store.CreateOwnerAccount st input = .ok (created, st1) →
    store.LoginCredentialsUserEmailExists st1 input.Email = .ok true
  addMember : ∀ st input role st1 email,
    store.AddOrganisationMember st input = .ok (role, st1) →
    store.LoginCredentialsUserEmailExists st email = .ok true →
    store.LoginCredentialsUserEmailExists st1 email = .ok true
  createOrg : ∀ st input org st1 email,
    store.CreateOrganisation st input = .ok (org, st1) →
    store.LoginCredentialsUserEmailExists st email = .ok true →
    store.LoginCredentialsUserEmailExists st1 email = .ok true
  updateOrg : ∀ st input org st1 email,
    store.UpdateOrganisation st input = .ok (org, st1) →
    store.LoginCredentialsUserEmailExists st email = .ok true →
    store.LoginCredentialsUserEmailExists st1 email = .ok true

/-! ## A reference store -/

/-- Modelled from the spec: the contents of the Account Store (section 3),
whose implementation (package `store`) is not part of the sources at hand:
the account, credential, organisation and membership tables. -/
structure MemState where
  accounts : List Account
  credentials : List LoginCredentials
  organisations : List Organisation
  roles : List AccountRole
  deriving DecidableEq, Repr

/-- Every identifier that occurs anywhere in the store. -/
def MemState.ids (st : MemState) : List String :=
  st.accounts.map (·.ID) ++ st.credentials.map (·.AccountID) ++
  st.organisations.map (·.ID) ++ st.organisations.map (·.OwnerID) ++
  st.roles.map (·.OrganisationID) ++ st.roles.map (·.AccountID)

/-- The length of the longest string of a list. -/
def maxLength (used : List String) : Nat :=
  used.foldr (fun s n => max s.length n) 0

/-- Modelled from the spec: generation of a unique identifier (section 3:
every Account and Organisation has a unique identifier).  The identifier is
longer than every identifier in use, hence new. -/
def freshID (tag : Char) (used : List String) : String :=
  String.mk (tag :: List.replicate (maxLength used) '0')

/-- The members of an organisation: its rows of the membership table. -/
def MemState.members (st : MemState) (organisationID : String) : List AccountRole :=
  st.roles.filter (fun r => decide (r.OrganisationID = organisationID))

/-- Modelled from the spec: `LoginCredentialsUserEmailExists(email)`, whether
the email already has a password-based LoginCredential (section 4.1). -/
def MemState.emailExists (st : MemState) (email : String) : Bool :=
  st.credentials.any
    (fun c => decide (c.Provider = AuthProviderUsernamePassword) && decide (c.Email = email))

/-- Modelled from the spec: `GetOrganisation(id) → Organisation | NotFound`. -/
def MemState.getOrganisation (st : MemState) (id : String) : Except Error Organisation :=
  match st.organisations.find? (fun o => decide (o.ID = id)) with
  | some org => .ok org
  | none => .error (.raised .notFound "organisation not found")

/-- Modelled from the spec: the atomic create-owner-account primitive
(sections 4.1 step 3, 5 and 6).  It enforces the uniqueness of (provider,
email), reported as Conflict, and otherwise creates an Account, its
LoginCredential, a new Organisation named after the full name and owned by
the account, and the AccountRole granting ownership in that organisation. -/
def MemState.createOwnerAccount (st : MemState) (input : CreateOwnerAccountInput) :
    Except Error (OwnerAccount × MemState) :=
  if st.credentials.any
      (fun c => decide (c.Provider = input.Provider) && decide (c.Email = input.Email)) then
    .error (.raised .conflict "login credentials already exist")
  else
    let accountID := freshID 'a' st.ids
    let orgID := freshID 'o' st.ids
    let account : Account :=
      { ID := accountID, Name := input.Name, FirstName := input.FirstName,
        LastName := input.LastName }
    let org : Organisation :=
      { ID := orgID, Name := input.Name, Description := none, Avatar := none,
        OwnerID := accountID }
    let credentials : LoginCredentials :=
      { AccountID := accountID, Provider := input.Provider,
        ProviderUserID := if input.ProviderUserID = "" then accountID else input.ProviderUserID,
        Email := input.Email, Password := input.Password }
    let accountRole : AccountRole :=
      { OrganisationID := orgID, AccountID := accountID, Role := RoleOwner }
    .ok (⟨account, org, credentials, accountRole⟩,
      { accounts := st.accounts ++ [account], credentials := st.credentials ++ [credentials],
        organisations := st.organisations ++ [org], roles := st.roles ++ [accountRole] })

/-- Modelled from the spec: `AddOrganisationMember`, which adds one
AccountRole row and keeps the invariant that an account holds at most one role
per organisation (section 3). -/
def MemState.addOrganisationMember (st : MemState) (input : AddOrganisationMemberInput) :
    Except Error (AccountRole × MemState) :=
  if st.roles.any (fun r => decide (r.OrganisationID = input.OrganisationID) &&
      decide (r.AccountID = input.AccountID)) then
    .error (.raised .conflict "account is already a member of the organisation")
  else
    let accountRole : AccountRole :=
      { OrganisationID := input.OrganisationID, AccountID := input.AccountID,
        Role := input.Role }
    .ok (accountRole, { st with roles := st.roles ++ [accountRole] })

/-- Modelled from the spec: `CreateOrganisation({name, ownerID, description?,
avatar?}) → Organisation`.  It creates the Organisation row and, when an owner
is given, the AccountRole of that owner on it: section 4.1 step 4b speaks of
"the role granted on the new Organisation" and section 8 counts the new owner
among the AccountRoles of a replacement organisation. -/
def MemState.createOrganisation (st : MemState) (input : CreateOrganisationInput) :
    Except Error (Organisation × MemState) :=
  let org : Organisation :=
    { ID := freshID 'o' st.ids, Name := input.Name, Description := input.Description,
      Avatar := input.Avatar, OwnerID := input.OwnerID }
  let granted : List AccountRole :=
    if input.OwnerID = "" then []
    else [{ OrganisationID := org.ID, AccountID := input.OwnerID, Role := RoleOwner }]
  .ok (org, { st with organisations := st.organisations ++ [org],
                      roles := st.roles ++ granted })

/-- One organisation row after an update: renamed when it is the target and a
name is given. -/
def renameOrganisation (input : UpdateOrganisationInput) (o : Organisation) : Organisation :=
  if o.ID = input.ID then
    match input.Name with
    | some name => { o with Name := name }
    | none => o
  else o

/-- Modelled from the spec: `UpdateOrganisation({id, name?}) → Organisation`. -/
def MemState.updateOrganisation (st : MemState) (input : UpdateOrganisationInput) :
    Except Error (Organisation × MemState) :=
  match st.organisations.find? (fun o => decide (o.ID = input.ID)) with
  | none => .error (.raised .notFound "organisation not found")
  | some org =>
    .ok (renameOrganisation input org,
      { st with organisations := st.organisations.map (renameOrganisation input) })

/-- Modelled from the spec: the Account Store of section 6 over `MemState`. -/
def memStore : Store MemState where
  LoginCredentialsUserEmailExists st email := .ok (st.emailExists email)
  GetOrganisation st id := st.getOrganisation id
  CreateOwnerAccount st input := st.createOwnerAccount input
  AddOrganisationMember st input := st.addOrganisationMember input
  CreateOrganisation st input := st.createOrganisation input
  ListOrganisationMembers st id := .ok (st.members id)
  UpdateOrganisation st input := st.updateOrganisation input

/-- Modelled from the spec: `HashPassword(plaintext) → hash | error`, the
Credential Hasher (section 6).  Like bcrypt it rejects a secret longer than 72
characters. -/
def memHashPassword (password : String) : Except Error String :=
  if password.length > 72 then
    .error (.raised .internal "password length exceeds 72 bytes")
  else .ok ("hash:" ++ password)

/-- The service over the reference store, for a given configuration. -/
def memService (cfg : Config) : service MemState :=
  { store := memStore, hashPassword := memHashPassword, cfg := cfg }

/-- A configuration with bootstrap disabled. -/
def noBootstrap : Config :=
  { Environment := "", EncryptionKey := "k", BootstrapAdminEmail := "",
    BootstrapAdminPassword := "", BootstrapAdminName := "", BootstrapAdminOrgName := "" }

/-- The empty store. -/
def emptyState : MemState :=
  { accounts := [], credentials := [], organisations := [], roles := [] }

/-- A store holding one admin, `jane@acme.io`, who owns the organisation
`Acme`. -/
def acmeState : MemState :=
  { accounts := [⟨"a", "Jane Doe", "Jane", "Doe"⟩],
    credentials := [⟨"a", AuthProviderUsernamePassword, "a", "jane@acme.io", "hash:pw"⟩],
    organisations := [⟨"o", "Acme", none, none, "a"⟩],
    roles := [⟨"o", "a", RoleOwner⟩] }

/-- A bootstrap configuration: admin `admin@x.com`, name `Jane Doe`,
organisation `Acme`. -/
def janeBootstrap : Config :=
  { Environment := "", EncryptionKey := "k", BootstrapAdminEmail := "admin@x.com",
    BootstrapAdminPassword := "secret", BootstrapAdminName := "Jane Doe",
    BootstrapAdminOrgName := "Acme" }

/-- A secret of 73 characters, one more than the reference hasher accepts. -/
def longPassword : String := String.mk (List.replicate 73 'p')

/-- The bootstrap configuration `janeBootstrap` with a secret the reference
hasher rejects. -/
def longSecretBootstrap : Config :=
  { janeBootstrap with BootstrapAdminPassword := longPassword }

/-- The input both creation operations pass to `CreateOwnerAccount`. -/
@[reducible] def ownerInput (email hashed firstName lastName : String) :
    CreateOwnerAccountInput :=
  { Name := firstName ++ " " ++ lastName, FirstName := firstName, LastName := lastName,
    Provider := AuthProviderUsernamePassword, Email := email, Password := hashed,
    ProviderUserID := "" }

/-- The input with which `CreateAdminUser` makes the new account an admin of
the requested organisation. -/
@[reducible] def adminInput (organisationID accountID : String) : AddOrganisationMemberInput :=
  { OrganisationID := organisationID, AccountID := accountID, Role := RoleAdmin }

/-- The input with which `CreateAdminUser` creates the replacement of an
ownerless organisation. -/
@[reducible] def replacementInput (org : Organisation) (accountID : String) :
    CreateOrganisationInput :=
  { Name := org.Name, OwnerID := accountID, Description := org.Description,
    Avatar := org.Avatar }

/-- The calls every successful `CreateAdminUser` starts with. -/
@[reducible] def adminCalls (email password hashed firstName lastName organisationID : String) :
    List Call :=
  [.LoginCredentialsUserEmailExists email, .hashPassword password,
    .GetOrganisation organisationID,
    .CreateOwnerAccount (ownerInput email hashed firstName lastName)]

/-- The calls every successful `CreateAdminUserWithNewOrganisation` starts
with. -/
@[reducible] def newOrgCalls (email password hashed firstName lastName : String) : List Call :=
  [.LoginCredentialsUserEmailExists email, .hashPassword password,
    .CreateOwnerAccount (ownerInput email hashed firstName lastName)]

/-- The rename `CreateAdminUserWithNewOrganisation` issues. -/
@[reducible] def renameInput (orgID orgName : String) : UpdateOrganisationInput :=
  { ID := orgID, Name := some orgName }

/-- The outcome of a creation operation stopped by the duplicate-email check:
the duplicate-email error, the store as it was, and the existence query as the
only call. -/
def conflictOutcome {σ α : Type} (email : String) (st : σ) : Outcome σ α :=
  ⟨.error (errUserExists email), st, [.LoginCredentialsUserEmailExists email]⟩

/-- The rows the member-transfer loop adds for a list of members. -/
def copies (accountID newOrgID : String) (members : List AccountRole) : List AccountRole :=
  (members.filter (fun m => decide (m.AccountID ≠ accountID))).map
    (fun m => ⟨newOrgID, m.AccountID, m.Role⟩)

/-- The reference store once `CreateAdminUser` has created the account and made
it an admin of the requested organisation. -/
def MemState.provisioned (st : MemState) (created : OwnerAccount) (organisationID : String) :
    MemState :=
  { accounts := st.accounts ++ [created.account],
    credentials := st.credentials ++ [created.credentials],
    organisations := st.organisations ++ [created.org],
    roles := st.roles ++ [created.accountRole] ++
      [⟨organisationID, created.account.ID, RoleAdmin⟩] }

/-- The organisation with which the reference store replaces an ownerless
organisation. -/
def MemState.replacement (st : MemState) (org : Organisation) (accountID : String) :
    Organisation :=
  ⟨freshID 'o' st.ids, org.Name, org.Description, org.Avatar, accountID⟩

/-- A store with an ownerless organisation `Guild` that has two members. -/
def guildState : MemState :=
  { accounts := [⟨"m1", "Ann Lee", "Ann", "Lee"⟩, ⟨"m2", "Cy Ng", "Cy", "Ng"⟩],
    credentials := [],
    organisations := [⟨"org", "Guild", some "a guild", none, ""⟩],
    roles := [⟨"org", "m1", "member"⟩, ⟨"org", "m2", RoleAdmin⟩] }

/-- The outcome of adding Bob Roe as admin of the ownerless `Guild`. -/
@[reducible] def guildOutcome : Outcome MemState Account :=
  CreateAdminUser (memService noBootstrap) "bob@x.io" "pw" "Bob" "Roe" "org" guildState

/-- The outcome of adding Bob Roe as admin of `Acme`, which Jane owns. -/
@[reducible] def acmeOutcome : Outcome MemState Account :=
  CreateAdminUser (memService noBootstrap) "bob@acme.io" "pw" "Bob" "Roe" "o" acmeState

/-- The outcome of `BootstrapAdmin` when it goes on to provision: that of
`CreateAdminUserWithNewOrganisation`, with its Account and Organisation
dropped and the existence query of `BootstrapAdmin` ahead of its calls. -/
def relayProvisioning {σ : Type} (adminEmail : String)
    (r : Outcome σ (Account × Organisation)) : Outcome σ Unit :=
  ⟨match r.res with
    | .error err => .error err
    | .ok _ => .ok (),
    r.st, .LoginCredentialsUserEmailExists adminEmail :: r.log⟩

/-- Modelled from the spec: an Account Store that is out of reach, so that
every primitive of section 6 fails. -/
def downStore : Store Unit where
  LoginCredentialsUserEmailExists _ _ := .error (.raised .internal "store unavailable")
  GetOrganisation _ _ := .error (.raised .internal "store unavailable")
  CreateOwnerAccount _ _ := .error (.raised .internal "store unavailable")
  AddOrganisationMember _ _ := .error (.raised .internal "store unavailable")
  CreateOrganisation _ _ := .error (.raised .internal "store unavailable")
  ListOrganisationMembers _ _ := .error (.raised .internal "store unavailable")
  UpdateOrganisation _ _ := .error (.raised .internal "store unavailable")

/-- The service over the store that is out of reach. -/
def downService (cfg : Config) : service Unit :=
  { store := downStore, hashPassword := memHashPassword, cfg := cfg }

/-- The bootstrap configuration `janeBootstrap` with no password set. -/
def noPasswordBootstrap : Config :=
  { janeBootstrap with BootstrapAdminPassword := "" }

/-- The bootstrap configuration `janeBootstrap` with the one-word admin name
`Jane`. -/
def oneWordBootstrap : Config :=
  { janeBootstrap with BootstrapAdminName := "Jane" }

/-- A bootstrap configuration that sets the email and the password only. -/
def bareBootstrap : Config :=
  { janeBootstrap with BootstrapAdminName := "", BootstrapAdminOrgName := "" }

/-- The error `e` comes from a collaborator of the service: some store
primitive or the password hasher returned it. -/
def Raises {σ : Type} (s : service σ) (e : Error) : Prop :=
  (∃ st email, s.store.LoginCredentialsUserEmailExists st email = .error e) ∨
  (∃ password, s.hashPassword password = .error e) ∨
  (∃ st id, s.store.GetOrganisation st id = .error e) ∨
  (∃ st input, s.store.CreateOwnerAccount st input = .error e) ∨
  (∃ st input, s.store.AddOrganisationMember st input = .error e) ∨
  (∃ st input, s.store.CreateOrganisation st input = .error e) ∨
  (∃ st id, s.store.ListOrganisationMembers st id = .error e) ∨
  (∃ st input, s.store.UpdateOrganisation st input = .error e)

/-- The error `err` is the collaborator error `e` wrapped with a context
string: `e` is what unwrapping gives back and the kind is that of `e`. -/
def Wraps {σ : Type} (s : service σ) (err : Error) : Prop :=
  ∃ ctx e, err = .wrapf ctx e ∧ ctx ≠ "" ∧ Raises s e ∧ err.Unwrap = some e ∧ err.kind = e.kind

/-- Modelled from the spec: the reference store as one of two racing callers
sees it (section 5): the existence pre-check still answers false although the
uniqueness constraint of `CreateOwnerAccount` already holds the email. -/
def raceStore : Store MemState :=
  { memStore with
    LoginCredentialsUserEmailExists := fun _ _ => .ok false }

/-- The service over the store seen by a racing caller. -/
def raceService : service MemState :=
  { store := raceStore, hashPassword := memHashPassword, cfg := noBootstrap }

/-- The `AddOrganisationMember` input with which the member-transfer loop
copies a member onto the new organisation. -/
@[reducible] def copyInput (newOrgID : String) (member : AccountRole) :
    AddOrganisationMemberInput :=
  { OrganisationID := newOrgID, AccountID := member.AccountID, Role := member.Role }

/-- The members the transfer loop copies: all but the new account. -/
def eligible (accountID : String) (members : List AccountRole) : List AccountRole :=
  members.filter (fun m => decide (m.AccountID ≠ accountID))

/-- A store in which the ownerless `Guild` lists the member `m1` twice, so
that the second copy of `m1` onto a replacement is refused. -/
def doubledGuildState : MemState :=
  { accounts := [⟨"m1", "Ann Lee", "Ann", "Lee"⟩, ⟨"m2", "Cy Ng", "Cy", "Ng"⟩],
    credentials := [],
    organisations := [⟨"org", "Guild", some "a guild", none, ""⟩],
    roles := [⟨"org", "m1", "member"⟩, ⟨"org", "m1", RoleAdmin⟩, ⟨"org", "m2", RoleAdmin⟩] }

/-- The outcome of adding Bob Roe as admin of the `Guild` of
`doubledGuildState`. -/
@[reducible] def doubledGuildOutcome : Outcome MemState Account :=
  CreateAdminUser (memService noBootstrap) "bob@x.io" "pw" "Bob" "Roe" "org" doubledGuildState

/-- The store law behind "the stored organisation": the organisation
`CreateOwnerAccount` returns is the one the store then holds under its
identifier, and a successful rename changes the name that is held and nothing
else of the organisation. -/
structure KeepsOrganisations {σ : Type} (store : Store σ) : Prop where
  minted : ∀ st input created st1,
    store.CreateOwnerAccount st input = .ok (created, st1) →
    store.GetOrganisation st1 created.org.ID = .ok created.org
  renamed : ∀ st id name org st1 old,
    store.UpdateOrganisation st { ID := id, Name := some name } = .ok (org, st1) →
    store.GetOrganisation st id = .ok old →
    store.GetOrganisation st1 id = .ok { old with Name := name }

/-! ## `config.go` -/

/-- The constant `EnvironmentProduction`. -/
def EnvironmentProduction : String := "production"

/-- The constant `defaultEncryptionKey`. -/
def defaultEncryptionKey : String := "must-be-something-else-in-prod"

/-- The method `IsProduction` of `Config`. -/
def Config.IsProduction (c : Config) : Bool :=
  decide (c.Environment = EnvironmentProduction)

/-- What `viper.ReadInConfig` returned: nil, a `viper.ConfigFileNotFoundError`,
or another error. -/
inductive ReadInConfig where
  | ok
  | configFileNotFound
  | failed (err : Error)
  deriving DecidableEq, Repr

/-- The function `New` of package `config`, given what the two fallible viper
calls return: `read` is the outcome of `viper.ReadInConfig` and `unmarshal`
that of `viper.Unmarshal`. -/
def New (read : ReadInConfig) (unmarshal : Except Error Config) : Except Error Config :=
  match read with
  | .failed err => .error (.wrapf "error reading config file" err)
  | _ =>
  match unmarshal with
  | .error err => .error (.wrapf "unable to unmarshal config" err)
  | .ok cfg =>
  let cfg := { cfg with Oauth2AuthProviders := [] }
  if cfg.IsProduction then
    if cfg.EncryptionKey = defaultEncryptionKey then
      .error (.errorf "encryption key is required in production environment")
    else .ok cfg
  else .ok cfg

/-- A production configuration that still carries the built-in key. -/
def unsafeProduction : Config :=
  { Environment := "production", EncryptionKey := "must-be-something-else-in-prod",
    BootstrapAdminEmail := "", BootstrapAdminPassword := "", BootstrapAdminName := "",
    BootstrapAdminOrgName := "Default Organization" }

/-! ## Whitespace, in the words of the design -/

/-- Tokens joined with single spaces, on lists of characters. -/
def joinChars : List (List Char) → List Char
  | [] => []
  | [a] => a
  | a :: b :: rest => a ++ ' ' :: joinChars (b :: rest)

/-- Every run of whitespace collapsed to a single space; `inRun` says that the
character before was whitespace. -/
def collapseRuns : Bool → List Char → List Char
  | _, [] => []
  | inRun, c :: cs =>
    if isSpace c then
      if inRun then collapseRuns true cs else ' ' :: collapseRuns true cs
    else c :: collapseRuns false cs

/-- Leading and trailing whitespace removed. -/
def trimSpaces (cs : List Char) : List Char :=
  ((cs.dropWhile isSpace).reverse.dropWhile isSpace).reverse

/-- A name with every run of whitespace collapsed to a single space and
leading and trailing whitespace removed.  This follows the words of the
property, not the code: it does not split the name into fields. -/
def normalizeName (name : String) : String :=
  String.mk (trimSpaces (collapseRuns false name.data))

/-- An admin name with leading, trailing and repeated whitespace (a tab
among it). -/
def spacedName : String := "  Jane \t van  Doe "

/-- The result `res` is the failure `e` of a collaborator call wrapped with
the context string `ctx`: unwrapping gives `e` back and the kind is that of
`e`. -/
def WrapsFailure {α : Type} (res : Except Error α) (ctx : String) (e : Error) : Prop :=
  res = .error (.wrapf ctx e) ∧ Error.Unwrap (.wrapf ctx e) = some e ∧
    Error.kind (.wrapf ctx e) = e.kind

/-! # Theorems -/

/-! ## Inversion of the successful paths -/

/-- Copying an optional field by value yields the field. -/
theorem copy_option (o : Option String) :
    (match o with
      | some v => some v
      | none => none) = o := by
  cases o <;> rfl

/-- The paths on which `CreateAdminUser` succeeds, with the store calls made on
each. -/
theorem CreateAdminUser_ok {σ : Type} (s : service σ) (st : σ)
    (email password firstName lastName organisationID : String) (account : Account)
    (h : (CreateAdminUser s email password firstName lastName organisationID st).res =
      .ok account) :
    ∃ hashed org created st1,
      s.store.LoginCredentialsUserEmailExists st email = .ok false ∧
      s.hashPassword password = .ok hashed ∧
      s.store.GetOrganisation st organisationID = .ok org ∧
      s.store.CreateOwnerAccount st (ownerInput email hashed firstName lastName) =
        .ok (created, st1) ∧
      account = created.account ∧
      ((created.accountRole.OrganisationID = organisationID ∧
          CreateAdminUser s email password firstName lastName organisationID st =
            ⟨.ok account, st1,
              adminCalls email password hashed firstName lastName organisationID⟩) ∨
        (created.accountRole.OrganisationID ≠ organisationID ∧
          ∃ role st2,
            s.store.AddOrganisationMember st1 (adminInput organisationID account.ID) =
              .ok (role, st2) ∧
            ((org.OwnerID ≠ "" ∧
                CreateAdminUser s email password firstName lastName organisationID st =
                  ⟨.ok account, st2,
                    adminCalls email password hashed firstName lastName organisationID ++
                      [.AddOrganisationMember (adminInput organisationID account.ID)]⟩) ∨
              (org.OwnerID = "" ∧
                ∃ newOrg st3 members,
                  s.store.CreateOrganisation st2 (replacementInput org account.ID) =
                    .ok (newOrg, st3) ∧
                  s.store.ListOrganisationMembers st3 organisationID = .ok members ∧
                  (transferMembers s account.ID newOrg.ID members st3).res = .ok () ∧
                  CreateAdminUser s email password firstName lastName organisationID st =
                    ⟨.ok account, (transferMembers s account.ID newOrg.ID members st3).st,
                      adminCalls email password hashed firstName lastName organisationID ++
                        [.AddOrganisationMember (adminInput organisationID account.ID),
                          .CreateOrganisation (replacementInput org account.ID),
                          .ListOrganisationMembers organisationID] ++
                        (transferMembers s account.ID newOrg.ID members st3).log⟩)))) := by
  cases he : s.store.LoginCredentialsUserEmailExists st email with
  | error err => simp [CreateAdminUser, he] at h
  | ok b =>
  cases b with
  | true => simp [CreateAdminUser, he] at h
  | false =>
  cases hh : s.hashPassword password with
  | error err => simp [CreateAdminUser, he, hh] at h
  | ok hashed =>
  cases hg : s.store.GetOrganisation st organisationID with
  | error err => simp [CreateAdminUser, he, hh, hg] at h
  | ok org =>
  cases hc : s.store.CreateOwnerAccount st (ownerInput email hashed firstName lastName) with
  | error err => simp [CreateAdminUser, he, hh, hg, hc] at h
  | ok p =>
  obtain ⟨created, st1⟩ := p
  by_cases hne : created.accountRole.OrganisationID = organisationID
  · have hacc : account = created.account := by
      simpa [CreateAdminUser, he, hh, hg, hc, hne] using h.symm
    refine ⟨hashed, org, created, st1, rfl, rfl, rfl, hc, hacc, Or.inl ⟨hne, ?_⟩⟩
    simp [CreateAdminUser, he, hh, hg, hc, hne, hacc]
  · cases hadd : s.store.AddOrganisationMember st1
        (adminInput organisationID created.account.ID) with
    | error err => simp [CreateAdminUser, he, hh, hg, hc, hne, hadd] at h
    | ok p2 =>
    obtain ⟨role, st2⟩ := p2
    by_cases hown : org.OwnerID = ""
    · cases hco : s.store.CreateOrganisation st2
          (replacementInput org created.account.ID) with
      | error err =>
        simp [CreateAdminUser, he, hh, hg, hc, hne, hadd, hown, copy_option, hco] at h
      | ok p3 =>
      obtain ⟨newOrg, st3⟩ := p3
      cases hl : s.store.ListOrganisationMembers st3 organisationID with
      | error err =>
        simp [CreateAdminUser, he, hh, hg, hc, hne, hadd, hown, copy_option, hco, hl] at h
      | ok members =>
      cases ht : (transferMembers s created.account.ID newOrg.ID members st3).res with
      | error err =>
        simp [CreateAdminUser, he, hh, hg, hc, hne, hadd, hown, copy_option, hco, hl, ht] at h
      | ok u =>
      have hacc : account = created.account := by
        simpa [CreateAdminUser, he, hh, hg, hc, hne, hadd, hown, copy_option, hco, hl, ht]
          using h.symm
      subst hacc
      refine ⟨hashed, org, created, st1, rfl, rfl, rfl, hc, rfl,
        Or.inr ⟨hne, role, st2, hadd, Or.inr ⟨hown, newOrg, st3, members, hco, hl, ht, ?_⟩⟩⟩
      simp [CreateAdminUser, he, hh, hg, hc, hne, hadd, hown, copy_option, hco, hl, ht]
    · have hacc : account = created.account := by
        simpa [CreateAdminUser, he, hh, hg, hc, hne, hadd, hown] using h.symm
      subst hacc
      refine ⟨hashed, org, created, st1, rfl, rfl, rfl, hc, rfl,
        Or.inr ⟨hne, role, st2, hadd, Or.inl ⟨hown, ?_⟩⟩⟩
      simp [CreateAdminUser, he, hh, hg, hc, hne, hadd, hown]

/-- The paths on which `CreateAdminUserWithNewOrganisation` succeeds: it
returns the account and the organisation of the create-owner-account
primitive, called on the initial store, the organisation with its name set to
`orgName`, after at most one rename. -/
theorem newOrganisation_ok {σ : Type} (s : service σ) (st : σ)
    (email password firstName lastName orgName : String) (account : Account)
    (org : Organisation)
    (h : (CreateAdminUserWithNewOrganisation s email password firstName lastName orgName st).res =
      .ok (account, org)) :
    ∃ hashed created st1,
      s.store.LoginCredentialsUserEmailExists st email = .ok false ∧
      s.hashPassword password = .ok hashed ∧
      s.store.CreateOwnerAccount st (ownerInput email hashed firstName lastName) =
        .ok (created, st1) ∧
      account = created.account ∧
      org = { created.org with Name := orgName } ∧
      ((created.org.Name = orgName ∧
          CreateAdminUserWithNewOrganisation s email password firstName lastName orgName st =
            ⟨.ok (account, org), st1, newOrgCalls email password hashed firstName lastName⟩) ∨
        (created.org.Name ≠ orgName ∧
          ∃ renamed st2,
            s.store.UpdateOrganisation st1 (renameInput created.org.ID orgName) =
              .ok (renamed, st2) ∧
            CreateAdminUserWithNewOrganisation s email password firstName lastName orgName st =
              ⟨.ok (account, org), st2,
                newOrgCalls email password hashed firstName lastName ++
                  [.UpdateOrganisation (renameInput created.org.ID orgName)]⟩)) := by
  cases he : s.store.LoginCredentialsUserEmailExists st email with
  | error err => simp [CreateAdminUserWithNewOrganisation, he] at h
  | ok b =>
  cases b with
  | true => simp [CreateAdminUserWithNewOrganisation, he] at h
  | false =>
  cases hh : s.hashPassword password with
  | error err => simp [CreateAdminUserWithNewOrganisation, he, hh] at h
  | ok hashed =>
  cases hc : s.store.CreateOwnerAccount st (ownerInput email hashed firstName lastName) with
  | error err => simp [CreateAdminUserWithNewOrganisation, he, hh, hc] at h
  | ok p =>
  obtain ⟨created, st1⟩ := p
  by_cases hn : created.org.Name = orgName
  · have hres : account = created.account ∧ org = created.org := by
      simpa [CreateAdminUserWithNewOrganisation, he, hh, hc, hn, eq_comm] using h
    obtain ⟨hacc, horg⟩ := hres
    subst hacc horg
    refine ⟨hashed, created, st1, rfl, rfl, hc, rfl, ?_, Or.inl ⟨hn, ?_⟩⟩
    · rw [← hn]
    · simp [CreateAdminUserWithNewOrganisation, he, hh, hc, hn]
  · cases hu : s.store.UpdateOrganisation st1 (renameInput created.org.ID orgName) with
    | error err => simp [CreateAdminUserWithNewOrganisation, he, hh, hc, hn, hu] at h
    | ok p2 =>
    obtain ⟨renamed, st2⟩ := p2
    have hres : account = created.account ∧ org = { created.org with Name := orgName } := by
      simpa [CreateAdminUserWithNewOrganisation, he, hh, hc, hn, hu, eq_comm] using h
    obtain ⟨hacc, horg⟩ := hres
    subst hacc horg
    refine ⟨hashed, created, st1, rfl, rfl, hc, rfl, rfl, Or.inr ⟨hn, renamed, st2, hu, ?_⟩⟩
    simp [CreateAdminUserWithNewOrganisation, he, hh, hc, hn, hu]

/-! ## The duplicate-email law -/

/-- The member-transfer loop keeps a registered email registered, whether or
not it runs to the end. -/
theorem transferMembers_keeps_email {σ : Type} (s : service σ) (hlaw : RegistersEmail s.store)
    (accountID newOrgID email : String) (members : List AccountRole) :
    ∀ st, s.store.LoginCredentialsUserEmailExists st email = .ok true →
      s.store.LoginCredentialsUserEmailExists
        (transferMembers s accountID newOrgID members st).st email = .ok true := by
  induction members with
  | nil => intro st h; simpa [transferMembers] using h
  | cons member rest ih =>
    intro st h
    by_cases hm : member.AccountID = accountID
    · simp only [transferMembers, ne_eq, hm, not_true_eq_false, ↓reduceIte]
      exact ih st h
    · simp only [transferMembers, ne_eq, hm, not_false_eq_true, ↓reduceIte]
      split
      · exact h
      · rename_i role st1 hadd
        exact ih st1 (hlaw.addMember _ _ _ _ _ hadd h)

/-- After a successful `CreateAdminUser` the email is registered. -/
theorem CreateAdminUser_registers {σ : Type} (s : service σ) (hlaw : RegistersEmail s.store)
    (st : σ) (email password firstName lastName organisationID : String) (account : Account)
    (h : (CreateAdminUser s email password firstName lastName organisationID st).res =
      .ok account) :
    s.store.LoginCredentialsUserEmailExists
      (CreateAdminUser s email password firstName lastName organisationID st).st email =
      .ok true := by
  obtain ⟨hashed, org, created, st1, _, _, _, hc, _, hpath⟩ :=
    CreateAdminUser_ok s st email password firstName lastName organisationID account h
  have h1 := hlaw.created _ _ _ _ rfl hc
  rcases hpath with ⟨_, hout⟩ | ⟨_, role, st2, hadd, hpath⟩
  · rw [hout]; exact h1
  · have h2 := hlaw.addMember _ _ _ _ _ hadd h1
    rcases hpath with ⟨_, hout⟩ | ⟨_, newOrg, st3, members, hco, _, _, hout⟩
    · rw [hout]; exact h2
    · rw [hout]
      exact transferMembers_keeps_email s hlaw _ _ _ members st3
        (hlaw.createOrg _ _ _ _ _ hco h2)

/-- After a successful `CreateAdminUserWithNewOrganisation` the email is
registered. -/
theorem newOrganisation_registers {σ : Type} (s : service σ) (hlaw : RegistersEmail s.store)
    (st : σ) (email password firstName lastName orgName : String)
    (r : Account × Organisation)
    (h : (CreateAdminUserWithNewOrganisation s email password firstName lastName orgName st).res =
      .ok r) :
    s.store.LoginCredentialsUserEmailExists
      (CreateAdminUserWithNewOrganisation s email password firstName lastName orgName st).st
      email = .ok true := by
  obtain ⟨account, org⟩ := r
  obtain ⟨hashed, created, st1, _, _, hc, _, _, hpath⟩ :=
    newOrganisation_ok s st email password firstName lastName orgName account org h
  have h1 := hlaw.created _ _ _ _ rfl hc
  rcases hpath with ⟨_, hout⟩ | ⟨_, renamed, st2, hu, hout⟩
  · rw [hout]; exact h1
  · rw [hout]; exact hlaw.updateOrg _ _ _ _ _ hu h1

/-- A successful `CreateAdminUserWithNewOrganisation` provisions exactly
once. -/
theorem newOrganisation_provisions_once {σ : Type} (s : service σ) (st : σ)
    (email password firstName lastName orgName : String) (r : Account × Organisation)
    (h : (CreateAdminUserWithNewOrganisation s email password firstName lastName orgName st).res =
      .ok r) :
    (CreateAdminUserWithNewOrganisation s email password firstName lastName orgName st).log.countP
      Call.isProvision = 1 := by
  obtain ⟨account, org⟩ := r
  obtain ⟨hashed, created, st1, _, _, _, _, _, hpath⟩ :=
    newOrganisation_ok s st email password firstName lastName orgName account org h
  rcases hpath with ⟨_, hout⟩ | ⟨_, renamed, st2, _, hout⟩
  · rw [hout]; rfl
  · rw [hout]; rfl

/-- Both creation operations stop at the duplicate-email check when the email
is registered. -/
theorem conflict_of_registered {σ : Type} (s : service σ) (st : σ)
    (email password firstName lastName organisationID orgName : String)
    (h : s.store.LoginCredentialsUserEmailExists st email = .ok true) :
    CreateAdminUser s email password firstName lastName organisationID st =
      conflictOutcome email st ∧
    CreateAdminUserWithNewOrganisation s email password firstName lastName orgName st =
      conflictOutcome email st := by
  constructor
  · simp only [CreateAdminUser, h, conflictOutcome]
  · simp only [CreateAdminUserWithNewOrganisation, h, conflictOutcome]

/-! ## The reference store -/

/-- No string of a list is longer than `maxLength` of the list. -/
theorem length_le_maxLength (used : List String) : ∀ s ∈ used, s.length ≤ maxLength used := by
  induction used with
  | nil => intro s hs; cases hs
  | cons u rest ih =>
    intro s hs
    simp only [maxLength, List.foldr_cons]
    rcases List.mem_cons.mp hs with rfl | hmem
    · exact le_max_left _ _
    · exact le_trans (ih s hmem) (le_max_right _ _)

/-- A generated identifier is not among the identifiers in use. -/
theorem freshID_not_mem (tag : Char) (used : List String) : freshID tag used ∉ used := by
  intro hmem
  have h := length_le_maxLength used _ hmem
  simp [freshID, String.length] at h

/-- A generated identifier is not the empty string. -/
theorem freshID_ne_empty (tag : Char) (used : List String) : freshID tag used ≠ "" := by
  intro h
  have := congrArg String.data h
  simp [freshID] at this

/-- The identifier of a stored organisation is in use. -/
theorem org_id_mem_ids (st : MemState) (o : Organisation) (h : o ∈ st.organisations) :
    o.ID ∈ st.ids := by
  simp only [MemState.ids, List.mem_append, List.mem_map]
  exact Or.inl (Or.inl (Or.inl (Or.inr ⟨o, h, rfl⟩)))

/-- The organisation identifier of a stored membership is in use. -/
theorem role_org_mem_ids (st : MemState) (r : AccountRole) (h : r ∈ st.roles) :
    r.OrganisationID ∈ st.ids := by
  simp only [MemState.ids, List.mem_append, List.mem_map]
  exact Or.inl (Or.inr ⟨r, h, rfl⟩)

/-- The account identifier of a stored membership is in use. -/
theorem role_account_mem_ids (st : MemState) (r : AccountRole) (h : r ∈ st.roles) :
    r.AccountID ∈ st.ids := by
  simp only [MemState.ids, List.mem_append, List.mem_map]
  exact Or.inr ⟨r, h, rfl⟩

/-- What the reference store creates when `CreateOwnerAccount` succeeds. -/
theorem createOwnerAccount_ok (st : MemState) (input : CreateOwnerAccountInput)
    (created : OwnerAccount) (st1 : MemState)
    (h : st.createOwnerAccount input = .ok (created, st1)) :
    created.account =
      ⟨freshID 'a' st.ids, input.Name, input.FirstName, input.LastName⟩ ∧
    created.org = ⟨freshID 'o' st.ids, input.Name, none, none, freshID 'a' st.ids⟩ ∧
    created.accountRole = ⟨freshID 'o' st.ids, freshID 'a' st.ids, RoleOwner⟩ ∧
    st1 = { accounts := st.accounts ++ [created.account],
            credentials := st.credentials ++ [created.credentials],
            organisations := st.organisations ++ [created.org],
            roles := st.roles ++ [created.accountRole] } := by
  simp only [MemState.createOwnerAccount] at h
  split at h
  · simp at h
  · simp only [Except.ok.injEq, Prod.mk.injEq] at h
    obtain ⟨h1, h2⟩ := h
    subst h1 h2
    exact ⟨rfl, rfl, rfl, rfl⟩

/-- The reference store after a successful `AddOrganisationMember`: one more
membership row. -/
theorem addOrganisationMember_ok (st : MemState) (input : AddOrganisationMemberInput)
    (role : AccountRole) (st1 : MemState)
    (h : st.addOrganisationMember input = .ok (role, st1)) :
    st1 = { st with roles := st.roles ++ [⟨input.OrganisationID, input.AccountID, input.Role⟩] } := by
  simp only [MemState.addOrganisationMember] at h
  split at h
  · simp at h
  · simp only [Except.ok.injEq, Prod.mk.injEq] at h
    exact h.2.symm

/-- An organisation fetched from the reference store is one of its rows and
has the identifier asked for. -/
theorem getOrganisation_ok (st : MemState) (id : String) (org : Organisation)
    (h : st.getOrganisation id = .ok org) : org ∈ st.organisations ∧ org.ID = id := by
  simp only [MemState.getOrganisation] at h
  split at h
  · rename_i o hf
    simp only [Except.ok.injEq] at h
    subst h
    exact ⟨List.mem_of_find?_eq_some hf, by simpa using List.find?_some hf⟩
  · simp at h

/-- Appending organisation rows does not change what a successful
`GetOrganisation` returns. -/
theorem getOrganisation_append (st st1 : MemState) (id : String) (org : Organisation)
    (more : List Organisation) (h : st.getOrganisation id = .ok org)
    (h1 : st1.organisations = st.organisations ++ more) :
    st1.getOrganisation id = .ok org := by
  simp only [MemState.getOrganisation] at h ⊢
  split at h
  · rename_i o hf
    rw [h1, List.find?_append, hf]
    simpa using h
  · simp at h

/-- The reference store obeys the duplicate-email law. -/
theorem memStore_registersEmail : RegistersEmail memStore where
  created := by
    intro st input created st1 hp hc
    simp only [memStore, MemState.createOwnerAccount] at hc ⊢
    split at hc
    · simp at hc
    · simp only [Except.ok.injEq, Prod.mk.injEq] at hc
      rw [← hc.2]
      simp [MemState.emailExists, hp]
  addMember := by
    intro st input role st1 email hc h
    simp only [memStore, MemState.addOrganisationMember] at hc h ⊢
    split at hc
    · simp at hc
    · simp only [Except.ok.injEq, Prod.mk.injEq] at hc
      rw [← hc.2]
      exact h
  createOrg := by
    intro st input org st1 email hc h
    simp only [memStore, MemState.createOrganisation, Except.ok.injEq, Prod.mk.injEq] at hc h ⊢
    rw [← hc.2]
    exact h
  updateOrg := by
    intro st input org st1 email hc h
    simp only [memStore, MemState.updateOrganisation] at hc h ⊢
    split at hc
    · simp at hc
    · simp only [Except.ok.injEq, Prod.mk.injEq] at hc
      rw [← hc.2]
      exact h

/-- On the reference store, a member-transfer loop that runs to the end adds
exactly the rows `copies`. -/
theorem transferMembers_mem (s : service MemState) (hs : s.store = memStore)
    (accountID newOrgID : String) (members : List AccountRole) :
    ∀ st, (transferMembers s accountID newOrgID members st).res = .ok () →
      (transferMembers s accountID newOrgID members st).st =
        { st with roles := st.roles ++ copies accountID newOrgID members } := by
  induction members with
  | nil => intro st _; simp [transferMembers, copies]
  | cons member rest ih =>
    intro st h
    by_cases hm : member.AccountID = accountID
    · simp only [transferMembers, ne_eq, hm, not_true_eq_false, ↓reduceIte] at h ⊢
      rw [ih st h]
      simp [copies, hm]
    · simp only [transferMembers, ne_eq, hm, not_false_eq_true, ↓reduceIte] at h ⊢
      cases hadd : s.store.AddOrganisationMember st
          ⟨newOrgID, member.AccountID, member.Role⟩ with
      | error err => simp [hadd] at h
      | ok p =>
        obtain ⟨role, st1⟩ := p
        simp only [hadd] at h ⊢
        rw [ih st1 h]
        rw [hs] at hadd
        have := addOrganisationMember_ok st _ role st1 hadd
        subst this
        simp [copies, hm]

/-- The members of the requested organisation once the new account has been
made its admin. -/
theorem provisioned_members (st : MemState) (created : OwnerAccount) (organisationID : String)
    (hfresh : created.accountRole.OrganisationID ≠ organisationID) :
    (st.provisioned created organisationID).members organisationID =
      st.members organisationID ++ [⟨organisationID, created.account.ID, RoleAdmin⟩] := by
  simp [MemState.members, MemState.provisioned, List.filter_append, List.filter_cons, hfresh]

/-- The member-transfer loop copies every prior member and skips the new
account. -/
theorem copies_members_append (accountID newOrgID organisationID role : String)
    (members : List AccountRole) (hnew : ∀ m ∈ members, m.AccountID ≠ accountID) :
    copies accountID newOrgID (members ++ [⟨organisationID, accountID, role⟩]) =
      members.map (fun m => ⟨newOrgID, m.AccountID, m.Role⟩) := by
  have hfilter : members.filter (fun m => decide (m.AccountID ≠ accountID)) = members := by
    rw [List.filter_eq_self]
    intro m hm
    simpa using hnew m hm
  rw [copies, List.filter_append, hfilter]
  simp

/-- The store a successful `CreateAdminUser` leaves behind, on the reference
store. -/
theorem CreateAdminUser_mem (s : service MemState) (hs : s.store = memStore) (st : MemState)
    (email password firstName lastName organisationID : String) (account : Account)
    (h : (CreateAdminUser s email password firstName lastName organisationID st).res =
      .ok account) :
    ∃ hashed org created,
      s.hashPassword password = .ok hashed ∧
      st.getOrganisation organisationID = .ok org ∧
      account = created.account ∧
      created.account.ID = freshID 'a' st.ids ∧
      created.org = ⟨freshID 'o' st.ids, firstName ++ " " ++ lastName, none, none,
        freshID 'a' st.ids⟩ ∧
      created.accountRole = ⟨freshID 'o' st.ids, freshID 'a' st.ids, RoleOwner⟩ ∧
      (org.OwnerID ≠ "" →
        CreateAdminUser s email password firstName lastName organisationID st =
          ⟨.ok account, st.provisioned created organisationID,
            adminCalls email password hashed firstName lastName organisationID ++
              [.AddOrganisationMember (adminInput organisationID account.ID)]⟩) ∧
      (org.OwnerID = "" →
        (CreateAdminUser s email password firstName lastName organisationID st).st =
          { st.provisioned created organisationID with
            organisations := (st.provisioned created organisationID).organisations ++
              [(st.provisioned created organisationID).replacement org account.ID],
            roles := (st.provisioned created organisationID).roles ++
              [⟨((st.provisioned created organisationID).replacement org account.ID).ID,
                account.ID, RoleOwner⟩] ++
              copies account.ID
                ((st.provisioned created organisationID).replacement org account.ID).ID
                ((st.provisioned created organisationID).members organisationID) } ∧
        .CreateOrganisation (replacementInput org account.ID) ∈
          (CreateAdminUser s email password firstName lastName organisationID st).log) := by
  obtain ⟨hashed, org, created, st1, _, hh, hg, hc, hacc, hpath⟩ :=
    CreateAdminUser_ok s st email password firstName lastName organisationID account h
  rw [hs] at hg hc hpath
  simp only [memStore] at hg hc hpath
  obtain ⟨hca, hco, hcr, hst1⟩ := createOwnerAccount_ok st _ created st1 hc
  have hfresh : freshID 'o' st.ids ≠ organisationID := by
    intro heq
    obtain ⟨hmem, hid⟩ := getOrganisation_ok st organisationID org hg
    have := org_id_mem_ids st org hmem
    rw [hid, ← heq] at this
    exact freshID_not_mem _ _ this
  refine ⟨hashed, org, created, hh, hg, hacc, by rw [hca], hco, hcr, ?_, ?_⟩
  · intro hown
    rcases hpath with ⟨heq, _⟩ | ⟨_, role, st2, hadd, hpath⟩
    · rw [hcr] at heq; exact absurd heq hfresh
    · rcases hpath with ⟨_, hout⟩ | ⟨hown2, _⟩
      · rw [hout]
        have h2 := addOrganisationMember_ok st1 _ role st2 hadd
        rw [h2, hst1, hacc]
        rfl
      · exact absurd hown2 hown
  · intro hown
    rcases hpath with ⟨heq, _⟩ | ⟨_, role, st2, hadd, hpath⟩
    · rw [hcr] at heq; exact absurd heq hfresh
    · rcases hpath with ⟨hown2, _⟩ | ⟨_, newOrg, st3, members, hcreate, hl, ht, hout⟩
      · exact absurd hown hown2
      · have h2 := addOrganisationMember_ok st1 _ role st2 hadd
        have hst2 : st2 = st.provisioned created organisationID := by
          rw [h2, hst1, hacc]; rfl
        subst hst2
        have hnonempty : account.ID ≠ "" := by
          rw [hacc, hca]
          exact freshID_ne_empty _ _
        have hother : freshID 'o' (st.provisioned created organisationID).ids ≠
            organisationID := by
          intro heq
          obtain ⟨hmem, hid⟩ := getOrganisation_ok st organisationID org hg
          have hin := org_id_mem_ids (st.provisioned created organisationID) org
            (by simp [MemState.provisioned, hmem])
          rw [hid] at hin
          have hin2 : freshID 'o' (st.provisioned created organisationID).ids ∈
              (st.provisioned created organisationID).ids := by
            rw [heq]
            exact hin
          exact freshID_not_mem _ _ hin2
        simp only [MemState.createOrganisation, hnonempty, ↓reduceIte, Except.ok.injEq,
          Prod.mk.injEq] at hcreate
        obtain ⟨hnew, hst3⟩ := hcreate
        simp only [Except.ok.injEq] at hl
        have hfin := transferMembers_mem s hs account.ID newOrg.ID members st3 ht
        rw [hout]
        refine ⟨?_, by simp⟩
        subst hl hnew hst3
        rw [hfin]
        simp [MemState.members, MemState.replacement, List.filter_append, hother]

/-- The store a successful `CreateAdminUser` leaves behind when the requested
organisation of the reference store is ownerless. -/
theorem CreateAdminUser_ownerless (s : service MemState) (hs : s.store = memStore)
    (st : MemState) (email password firstName lastName organisationID : String)
    (org : Organisation) (account : Account)
    (horg : st.getOrganisation organisationID = .ok org) (hown : org.OwnerID = "")
    (h : (CreateAdminUser s email password firstName lastName organisationID st).res =
      .ok account) :
    ∃ minted replacement : Organisation,
      (CreateAdminUser s email password firstName lastName organisationID st).st.organisations =
        st.organisations ++ [minted, replacement] ∧
      (CreateAdminUser s email password firstName lastName organisationID st).st.roles =
        st.roles ++ [⟨minted.ID, account.ID, RoleOwner⟩,
          ⟨organisationID, account.ID, RoleAdmin⟩,
          ⟨replacement.ID, account.ID, RoleOwner⟩] ++
          (st.members organisationID).map (fun m => ⟨replacement.ID, m.AccountID, m.Role⟩) ∧
      .CreateOrganisation (replacementInput org account.ID) ∈
        (CreateAdminUser s email password firstName lastName organisationID st).log ∧
      replacement.Name = org.Name ∧ replacement.OwnerID = account.ID ∧
      minted.ID ≠ organisationID ∧ replacement.ID ≠ organisationID ∧
      replacement.ID ≠ minted.ID ∧
      (∀ r ∈ st.roles, r.OrganisationID ≠ replacement.ID ∧ r.AccountID ≠ account.ID) := by
  obtain ⟨hashed, org2, created, _, hg, hacc, hid, hco, hcr, _, hpath⟩ :=
    CreateAdminUser_mem s hs st email password firstName lastName organisationID account h
  rw [horg] at hg
  simp only [Except.ok.injEq] at hg
  subst hg
  obtain ⟨hst, hlog⟩ := hpath hown
  obtain ⟨hmem, horgid⟩ := getOrganisation_ok st organisationID org horg
  have hfresh : freshID 'o' st.ids ≠ organisationID := by
    intro heq
    have := org_id_mem_ids st org hmem
    rw [horgid, ← heq] at this
    exact freshID_not_mem _ _ this
  have hfreshRole : created.accountRole.OrganisationID ≠ organisationID := by
    rw [hcr]; exact hfresh
  have haccfresh : ∀ r ∈ st.roles, r.AccountID ≠ account.ID := by
    intro r hr heq
    have := role_account_mem_ids st r hr
    rw [heq, hacc, hid] at this
    exact freshID_not_mem _ _ this
  have hPfresh : ∀ x ∈ (st.provisioned created organisationID).ids,
      x ≠ ((st.provisioned created organisationID).replacement org account.ID).ID := by
    intro x hx heq
    rw [heq] at hx
    exact freshID_not_mem _ _ hx
  refine ⟨created.org, (st.provisioned created organisationID).replacement org account.ID,
    ?_, ?_, hlog, rfl, rfl, ?_, ?_, ?_, ?_⟩
  · rw [hst]
    simp [MemState.provisioned]
  · rw [hst, provisioned_members st created organisationID hfreshRole, hacc,
      copies_members_append _ _ _ _ _ (fun m hm => by
        have := haccfresh m (List.mem_of_mem_filter hm)
        rwa [hacc] at this)]
    simp [MemState.provisioned, hcr, hco, hid]
  · rw [hco]; exact hfresh
  · apply Ne.symm
    apply hPfresh
    have := org_id_mem_ids (st.provisioned created organisationID) org
      (by simp [MemState.provisioned, hmem])
    rwa [horgid] at this
  · apply Ne.symm
    apply hPfresh
    apply org_id_mem_ids
    simp [MemState.provisioned]
  · intro r hr
    refine ⟨?_, haccfresh r hr⟩
    apply hPfresh
    apply role_org_mem_ids
    simp [MemState.provisioned, hr]

/-! ## Admin provisioning: ownership reconciliation -/

/-- C1: when the email is unused and the requested organisation of the
reference store is ownerless and has N members, a successful `CreateAdminUser`
produces a replacement Organisation, owned by the new account, that holds
exactly N + 1 AccountRoles: the role of the new owner account, and one for
each prior member with that member's role preserved. -/
theorem replacement_holds_members_and_owner (s : service MemState)
    (hs : s.store = memStore) (st : MemState)
    (email password firstName lastName organisationID : String)
    (org : Organisation) (account : Account)
    (horg : st.getOrganisation organisationID = .ok org) (hown : org.OwnerID = "")
    (h : (CreateAdminUser s email password firstName lastName organisationID st).res =
      .ok account) :
    st.emailExists email = false ∧
    ∃ minted replacement : Organisation,
      (CreateAdminUser s email password firstName lastName organisationID st).st.organisations =
        st.organisations ++ [minted, replacement] ∧
      .CreateOrganisation (replacementInput org account.ID) ∈
        (CreateAdminUser s email password firstName lastName organisationID st).log ∧
      replacement.OwnerID = account.ID ∧
      st.members replacement.ID = [] ∧
      (CreateAdminUser s email password firstName lastName organisationID st).st.members
          replacement.ID =
        ⟨replacement.ID, account.ID, RoleOwner⟩ ::
          (st.members organisationID).map (fun m => ⟨replacement.ID, m.AccountID, m.Role⟩) ∧
      ((CreateAdminUser s email password firstName lastName organisationID st).st.members
          replacement.ID).length = (st.members organisationID).length + 1 := by
  obtain ⟨minted, replacement, horgs, hroles, hlog, _, howner, _, hne, hnm, hfresh⟩ :=
    CreateAdminUser_ownerless s hs st email password firstName lastName organisationID org
      account horg hown h
  have hunused : st.emailExists email = false := by
    obtain ⟨_, _, _, _, he, _⟩ :=
      CreateAdminUser_ok s st email password firstName lastName organisationID account h
    rw [hs] at he
    simpa [memStore] using he
  have hnone : st.members replacement.ID = [] := by
    rw [MemState.members, List.filter_eq_nil_iff]
    intro r hr
    simpa using (hfresh r hr).1
  have hmembers :
      (CreateAdminUser s email password firstName lastName organisationID st).st.members
        replacement.ID =
      ⟨replacement.ID, account.ID, RoleOwner⟩ ::
        (st.members organisationID).map (fun m => ⟨replacement.ID, m.AccountID, m.Role⟩) := by
    have hall : (st.members organisationID).filter
        ((fun r => decide (r.OrganisationID = replacement.ID)) ∘
          fun m => (⟨replacement.ID, m.AccountID, m.Role⟩ : AccountRole)) =
        st.members organisationID := by
      rw [List.filter_eq_self]
      intro m _
      simp
    rw [MemState.members, hroles, List.filter_append, List.filter_append, ← MemState.members,
      hnone, List.filter_map, hall]
    simp [List.filter_cons, hnm.symm, hne.symm]
  refine ⟨hunused, minted, replacement, horgs, hlog, howner, hnone, hmembers, ?_⟩
  rw [hmembers, List.length_cons, List.length_map]

/-- Witness of C1 on `guildState`: `Guild` is ownerless and has 2 members, and
the replacement `o0000` holds 3 AccountRoles. -/
theorem replacement_holds_members_and_owner_witness :
    guildState.getOrganisation "org" = .ok ⟨"org", "Guild", some "a guild", none, ""⟩ ∧
    guildOutcome.res = .ok ⟨"a000", "Bob Roe", "Bob", "Roe"⟩ ∧
    guildOutcome.st.members "o0000" =
      [⟨"o0000", "a000", RoleOwner⟩, ⟨"o0000", "m1", "member"⟩, ⟨"o0000", "m2", RoleAdmin⟩] ∧
    guildState.emailExists "bob@x.io" = false ∧
    ∃ minted replacement : Organisation,
      guildOutcome.st.organisations = guildState.organisations ++ [minted, replacement] ∧
      .CreateOrganisation
          (replacementInput ⟨"org", "Guild", some "a guild", none, ""⟩ "a000") ∈
        guildOutcome.log ∧
      replacement.OwnerID = "a000" ∧
      guildState.members replacement.ID = [] ∧
      guildOutcome.st.members replacement.ID =
        ⟨replacement.ID, "a000", RoleOwner⟩ ::
          (guildState.members "org").map (fun m => ⟨replacement.ID, m.AccountID, m.Role⟩) ∧
      (guildOutcome.st.members replacement.ID).length =
        (guildState.members "org").length + 1 :=
  ⟨rfl, rfl, rfl,
    replacement_holds_members_and_owner (memService noBootstrap) rfl guildState "bob@x.io" "pw"
      "Bob" "Roe" "org" ⟨"org", "Guild", some "a guild", none, ""⟩
      ⟨"a000", "Bob Roe", "Bob", "Roe"⟩ rfl rfl rfl⟩

/-- C2, as stated, fails: after a successful `CreateAdminUser` on the ownerless
`Guild`, the original organisation has gained a member, the new account with
role admin. -/
theorem original_org_gains_admin :
    guildState.getOrganisation "org" = .ok ⟨"org", "Guild", some "a guild", none, ""⟩ ∧
    guildOutcome.res = .ok ⟨"a000", "Bob Roe", "Bob", "Roe"⟩ ∧
    guildState.members "org" = [⟨"org", "m1", "member"⟩, ⟨"org", "m2", RoleAdmin⟩] ∧
    guildOutcome.st.members "org" =
      [⟨"org", "m1", "member"⟩, ⟨"org", "m2", RoleAdmin⟩, ⟨"org", "a000", RoleAdmin⟩] ∧
    guildOutcome.st.members "org" ≠ guildState.members "org" := by
  refine ⟨rfl, rfl, rfl, rfl, by decide⟩

/-- C2, amended: when the requested organisation of the reference store is
ownerless, after a successful `CreateAdminUser` the original organisation's
row is as it was, its owner reference still empty, and its AccountRoles are
its old members with their old roles followed by exactly one new row, the new
account with role admin. -/
theorem original_org_keeps_members_gains_admin (s : service MemState)
    (hs : s.store = memStore) (st : MemState)
    (email password firstName lastName organisationID : String)
    (org : Organisation) (account : Account)
    (horg : st.getOrganisation organisationID = .ok org) (hown : org.OwnerID = "")
    (h : (CreateAdminUser s email password firstName lastName organisationID st).res =
      .ok account) :
    (∃ minted replacement : Organisation,
      (CreateAdminUser s email password firstName lastName organisationID st).st.organisations =
        st.organisations ++ [minted, replacement]) ∧
    (CreateAdminUser s email password firstName lastName organisationID st).st.getOrganisation
        organisationID = .ok org ∧
    org.OwnerID = "" ∧
    (CreateAdminUser s email password firstName lastName organisationID st).st.members
        organisationID =
      st.members organisationID ++ [⟨organisationID, account.ID, RoleAdmin⟩] := by
  obtain ⟨minted, replacement, horgs, hroles, _, _, _, hmne, hne, _, _⟩ :=
    CreateAdminUser_ownerless s hs st email password firstName lastName organisationID org
      account horg hown h
  have hget := getOrganisation_append st _ organisationID org _ horg horgs
  refine ⟨⟨minted, replacement, horgs⟩, hget, hown, ?_⟩
  have hnone : (st.members organisationID).filter
      ((fun r => decide (r.OrganisationID = organisationID)) ∘
        fun m => (⟨replacement.ID, m.AccountID, m.Role⟩ : AccountRole)) = [] := by
    rw [List.filter_eq_nil_iff]
    intro m _
    simpa using hne
  rw [MemState.members, hroles, List.filter_append, List.filter_append, ← MemState.members,
    List.filter_map, hnone]
  simp [List.filter_cons, hmne, hne]

/-- Witness of the amended C2 on `guildState`. -/
theorem original_org_keeps_members_gains_admin_witness :
    guildState.getOrganisation "org" = .ok ⟨"org", "Guild", some "a guild", none, ""⟩ ∧
    guildOutcome.res = .ok ⟨"a000", "Bob Roe", "Bob", "Roe"⟩ ∧
    (∃ minted replacement : Organisation,
      guildOutcome.st.organisations = guildState.organisations ++ [minted, replacement]) ∧
    guildOutcome.st.getOrganisation "org" =
      .ok ⟨"org", "Guild", some "a guild", none, ""⟩ ∧
    (Organisation.mk "org" "Guild" (some "a guild") none "").OwnerID = "" ∧
    guildOutcome.st.members "org" = guildState.members "org" ++ [⟨"org", "a000", RoleAdmin⟩] :=
  ⟨rfl, rfl, original_org_keeps_members_gains_admin (memService noBootstrap) rfl guildState
    "bob@x.io" "pw" "Bob" "Roe" "org" ⟨"org", "Guild", some "a guild", none, ""⟩
    ⟨"a000", "Bob Roe", "Bob", "Roe"⟩ rfl rfl rfl⟩

/-- C3, as stated, fails: `Acme` has an owner, and a successful `CreateAdminUser`
for it still leaves one more Organisation in the store, the one the
`CreateOwnerAccount` primitive mints for every account it creates. -/
theorem owned_org_still_mints_organisation :
    memStore.LoginCredentialsUserEmailExists acmeState "bob@acme.io" = .ok false ∧
    acmeState.getOrganisation "o" = .ok ⟨"o", "Acme", none, none, "a"⟩ ∧
    acmeOutcome.res = .ok ⟨"a0", "Bob Roe", "Bob", "Roe"⟩ ∧
    acmeState.organisations = [⟨"o", "Acme", none, none, "a"⟩] ∧
    acmeOutcome.st.organisations =
      [⟨"o", "Acme", none, none, "a"⟩, ⟨"o0", "Bob Roe", none, none, "a0"⟩] ∧
    acmeOutcome.st.organisations.length = acmeState.organisations.length + 1 := by
  refine ⟨rfl, rfl, rfl, rfl, rfl, rfl⟩

/-- C3, amended: when the requested organisation of the reference store has an
owner, a successful `CreateAdminUser` makes no `CreateOrganisation` call, the
only Organisation added to the store is the one `CreateOwnerAccount` mints for
the new account, and the AccountRoles of the requested organisation are the
old ones followed by exactly one new row, the new account with role admin: the
count increases by exactly one. -/
theorem owned_org_gains_one_admin (s : service MemState) (hs : s.store = memStore)
    (st : MemState) (email password firstName lastName organisationID : String)
    (org : Organisation) (account : Account)
    (horg : st.getOrganisation organisationID = .ok org) (hown : org.OwnerID ≠ "")
    (h : (CreateAdminUser s email password firstName lastName organisationID st).res =
      .ok account) :
    (∀ input, Call.CreateOrganisation input ∉
      (CreateAdminUser s email password firstName lastName organisationID st).log) ∧
    (∃ minted : Organisation,
      (CreateAdminUser s email password firstName lastName organisationID st).st.organisations =
        st.organisations ++ [minted] ∧
      minted.OwnerID = account.ID ∧ minted.ID ≠ organisationID) ∧
    (CreateAdminUser s email password firstName lastName organisationID st).st.members
        organisationID =
      st.members organisationID ++ [⟨organisationID, account.ID, RoleAdmin⟩] ∧
    ((CreateAdminUser s email password firstName lastName organisationID st).st.members
        organisationID).length = (st.members organisationID).length + 1 := by
  obtain ⟨hashed, org2, created, _, hg, hacc, hid, hco, hcr, hpath, _⟩ :=
    CreateAdminUser_mem s hs st email password firstName lastName organisationID account h
  rw [horg] at hg
  simp only [Except.ok.injEq] at hg
  subst hg
  have hout := hpath hown
  obtain ⟨hmem, horgid⟩ := getOrganisation_ok st organisationID org horg
  have hfresh : freshID 'o' st.ids ≠ organisationID := by
    intro heq
    have := org_id_mem_ids st org hmem
    rw [horgid, ← heq] at this
    exact freshID_not_mem _ _ this
  have hmembers :
      (CreateAdminUser s email password firstName lastName organisationID st).st.members
        organisationID =
      st.members organisationID ++ [⟨organisationID, account.ID, RoleAdmin⟩] := by
    rw [hout, hacc]
    exact provisioned_members st created organisationID (by rw [hcr]; exact hfresh)
  refine ⟨?_, ⟨created.org, ?_, ?_, ?_⟩, hmembers, ?_⟩
  · intro input
    rw [hout]
    simp
  · rw [hout]
    rfl
  · rw [hco, hacc, hid]
  · rw [hco]; exact hfresh
  · rw [hmembers, List.length_append, List.length_singleton]

/-- Witness of the amended C3 on `acmeState`. -/
theorem owned_org_gains_one_admin_witness :
    acmeState.getOrganisation "o" = .ok ⟨"o", "Acme", none, none, "a"⟩ ∧
    acmeOutcome.res = .ok ⟨"a0", "Bob Roe", "Bob", "Roe"⟩ ∧
    (∀ input, Call.CreateOrganisation input ∉ acmeOutcome.log) ∧
    (∃ minted : Organisation,
      acmeOutcome.st.organisations = acmeState.organisations ++ [minted] ∧
      minted.OwnerID = "a0" ∧ minted.ID ≠ "o") ∧
    acmeOutcome.st.members "o" = acmeState.members "o" ++ [⟨"o", "a0", RoleAdmin⟩] ∧
    (acmeOutcome.st.members "o").length = (acmeState.members "o").length + 1 :=
  ⟨rfl, rfl, owned_org_gains_one_admin (memService noBootstrap) rfl acmeState "bob@acme.io"
    "pw" "Bob" "Roe" "o" ⟨"o", "Acme", none, none, "a"⟩ ⟨"a0", "Bob Roe", "Bob", "Roe"⟩ rfl
    (by decide) rfl⟩

/-! ## Early exits -/

/-- C4, as stated, fails in one respect: the error both operations return for
a taken email is built by `fmt.Errorf` with no wrapped cause, so it carries no
kind at all; in particular its kind is not Conflict. -/
theorem duplicate_email_error_is_untyped :
    memStore.LoginCredentialsUserEmailExists acmeState "jane@acme.io" = .ok true ∧
    (CreateAdminUser (memService noBootstrap) "jane@acme.io" "pw" "J" "D" "o" acmeState).res =
      .error (errUserExists "jane@acme.io") ∧
    (CreateAdminUserWithNewOrganisation (memService noBootstrap) "jane@acme.io" "pw" "J" "D"
        "Org" acmeState).res = .error (errUserExists "jane@acme.io") ∧
    Error.kind (errUserExists "jane@acme.io") = none ∧
    Error.kind (errUserExists "jane@acme.io") ≠ some .conflict := by
  refine ⟨rfl, rfl, rfl, rfl, ?_⟩
  decide

/-- C4, amended: when the email-existence query answers true, both
`CreateAdminUser` and `CreateAdminUserWithNewOrganisation` fail with the error
"user with email <email> already exists", which wraps nothing and carries no
kind (the duplicate is told by its text, not by a Conflict kind); they return
no Account and no Organisation, leave the store as it was, and the existence
query is the only collaborator call: nothing is hashed and nothing is
created. -/
theorem existing_email_is_refused {σ : Type} (s : service σ) (st : σ)
    (email password firstName lastName organisationID orgName : String)
    (h : s.store.LoginCredentialsUserEmailExists st email = .ok true) :
    CreateAdminUser s email password firstName lastName organisationID st =
      ⟨.error (errUserExists email), st, [.LoginCredentialsUserEmailExists email]⟩ ∧
    CreateAdminUserWithNewOrganisation s email password firstName lastName orgName st =
      ⟨.error (errUserExists email), st, [.LoginCredentialsUserEmailExists email]⟩ ∧
    (errUserExists email).text = "user with email " ++ email ++ " already exists" ∧
    (errUserExists email).kind = none ∧ (errUserExists email).Unwrap = none := by
  refine ⟨?_, ?_, rfl, rfl, rfl⟩
  · simp only [CreateAdminUser, h]
  · simp only [CreateAdminUserWithNewOrganisation, h]

/-- Witness of the amended C4 on the reference store: `jane@acme.io` is taken
in `acmeState`. -/
theorem existing_email_is_refused_witness :
    memStore.LoginCredentialsUserEmailExists acmeState "jane@acme.io" = .ok true ∧
    CreateAdminUser (memService noBootstrap) "jane@acme.io" "pw" "J" "D" "o" acmeState =
      ⟨.error (errUserExists "jane@acme.io"), acmeState,
        [.LoginCredentialsUserEmailExists "jane@acme.io"]⟩ ∧
    CreateAdminUserWithNewOrganisation (memService noBootstrap) "jane@acme.io" "pw" "J" "D"
        "Org" acmeState =
      ⟨.error (errUserExists "jane@acme.io"), acmeState,
        [.LoginCredentialsUserEmailExists "jane@acme.io"]⟩ ∧
    (errUserExists "jane@acme.io").text =
      "user with email " ++ "jane@acme.io" ++ " already exists" ∧
    (errUserExists "jane@acme.io").kind = none ∧
    (errUserExists "jane@acme.io").Unwrap = none :=
  ⟨rfl, existing_email_is_refused (memService noBootstrap) acmeState "jane@acme.io" "pw" "J" "D"
    "o" "Org" rfl⟩

/-- C5, as stated, fails: with an unused email and an organisation identifier
that `GetOrganisation` reports as NotFound, `CreateAdminUser` hashes the
password before it fetches the organisation, so a secret the hasher rejects
yields the hashing failure (kind internal), not NotFound. -/
theorem missing_org_hash_failure_first :
    memStore.LoginCredentialsUserEmailExists emptyState "a@x.com" = .ok false ∧
    memStore.GetOrganisation emptyState "missing" =
      .error (.raised .notFound "organisation not found") ∧
    (CreateAdminUser (memService noBootstrap) "a@x.com" longPassword "Jane" "Doe" "missing"
        emptyState).res =
      .error (.wrapf "failed to hash password"
        (.raised .internal "password length exceeds 72 bytes")) ∧
    Error.kind (.wrapf "failed to hash password"
        (.raised .internal "password length exceeds 72 bytes")) ≠ some .notFound := by
  refine ⟨rfl, rfl, rfl, ?_⟩
  decide

/-- C5, amended: with an unused email and an organisation identifier that
`GetOrganisation` reports as NotFound, `CreateAdminUser` fails and leaves the
store unchanged, making no creation call.  When the password hashes, the error
is the store's NotFound error wrapped with context, of kind NotFound; when
hashing fails, it is the hashing failure, and the organisation is not even
fetched. -/
theorem missing_org_is_not_found {σ : Type} (s : service σ) (st : σ)
    (email password firstName lastName organisationID : String) (e : Error)
    (hemail : s.store.LoginCredentialsUserEmailExists st email = .ok false)
    (horg : s.store.GetOrganisation st organisationID = .error e)
    (hkind : e.kind = some .notFound) :
    (∀ hashed, s.hashPassword password = .ok hashed →
      CreateAdminUser s email password firstName lastName organisationID st =
        ⟨.error (.wrapf "failed to get organisation" e), st,
          [.LoginCredentialsUserEmailExists email, .hashPassword password,
            .GetOrganisation organisationID]⟩ ∧
      Error.kind (.wrapf "failed to get organisation" e) = some .notFound ∧
      Error.Unwrap (.wrapf "failed to get organisation" e) = some e) ∧
    (∀ e2, s.hashPassword password = .error e2 →
      CreateAdminUser s email password firstName lastName organisationID st =
        ⟨.error (.wrapf "failed to hash password" e2), st,
          [.LoginCredentialsUserEmailExists email, .hashPassword password]⟩) := by
  constructor
  · intro hashed hh
    refine ⟨?_, ?_, rfl⟩
    · simp only [CreateAdminUser, hemail, hh, horg]
    · simpa [Error.kind] using hkind
  · intro e2 hh
    simp only [CreateAdminUser, hemail, hh]

/-- Witness of the amended C5 on the reference store. -/
theorem missing_org_is_not_found_witness :
    (∀ hashed, memHashPassword "pw" = .ok hashed →
      CreateAdminUser (memService noBootstrap) "a@x.com" "pw" "Jane" "Doe" "missing" emptyState =
        ⟨.error (.wrapf "failed to get organisation"
            (.raised .notFound "organisation not found")), emptyState,
          [.LoginCredentialsUserEmailExists "a@x.com", .hashPassword "pw",
            .GetOrganisation "missing"]⟩ ∧
      Error.kind (.wrapf "failed to get organisation"
          (.raised .notFound "organisation not found")) = some .notFound ∧
      Error.Unwrap (.wrapf "failed to get organisation"
          (.raised .notFound "organisation not found")) =
        some (.raised .notFound "organisation not found")) ∧
    (∀ e2, memHashPassword "pw" = .error e2 →
      CreateAdminUser (memService noBootstrap) "a@x.com" "pw" "Jane" "Doe" "missing" emptyState =
        ⟨.error (.wrapf "failed to hash password" e2), emptyState,
          [.LoginCredentialsUserEmailExists "a@x.com", .hashPassword "pw"]⟩) :=
  missing_org_is_not_found (memService noBootstrap) emptyState "a@x.com" "pw" "Jane" "Doe"
    "missing" (.raised .notFound "organisation not found") rfl rfl rfl

/-! ## Owner and organisation provisioning -/

/-- C6: whenever `CreateAdminUserWithNewOrganisation` succeeds, the returned
Organisation's Name equals the caller-supplied `orgName`; in particular it is
`orgName`, not the full name, when the two differ. -/
theorem returned_org_name_is_orgName {σ : Type} (s : service σ) (st : σ)
    (email password firstName lastName orgName : String) (account : Account)
    (org : Organisation)
    (h : (CreateAdminUserWithNewOrganisation s email password firstName lastName orgName st).res =
      .ok (account, org)) :
    org.Name = orgName ∧
    (orgName ≠ firstName ++ " " ++ lastName → org.Name ≠ firstName ++ " " ++ lastName) := by
  obtain ⟨_, created, _, _, _, _, _, horg, _⟩ :=
    newOrganisation_ok s st email password firstName lastName orgName account org h
  have hname : org.Name = orgName := by rw [horg]
  exact ⟨hname, fun hne => by rw [hname]; exact hne⟩

/-- Witness of C6: on the empty reference store, provisioning Jane Doe with
organisation name `Acme` returns an organisation named `Acme`. -/
theorem returned_org_name_is_orgName_witness :
    (CreateAdminUserWithNewOrganisation (memService noBootstrap) "a@x.com" "pw" "Jane" "Doe"
        "Acme" emptyState).res =
      .ok (⟨"a", "Jane Doe", "Jane", "Doe"⟩, ⟨"o", "Acme", none, none, "a"⟩) ∧
    (Organisation.mk "o" "Acme" none none "a").Name = "Acme" ∧
    ("Acme" ≠ "Jane" ++ " " ++ "Doe" →
      (Organisation.mk "o" "Acme" none none "a").Name ≠ "Jane" ++ " " ++ "Doe") :=
  ⟨rfl, returned_org_name_is_orgName (memService noBootstrap) emptyState "a@x.com" "pw" "Jane"
    "Doe" "Acme" ⟨"a", "Jane Doe", "Jane", "Doe"⟩ ⟨"o", "Acme", none, none, "a"⟩ rfl⟩

/-- C7: whenever `CreateAdminUserWithNewOrganisation` succeeds, it returns the
Account of the store's `CreateOwnerAccount` primitive unchanged and the
primitive's Organisation with no field other than Name altered; so, given that
the primitive returns an Organisation owned by the Account it returns, the
returned Organisation's owner reference equals the returned Account's
identifier. -/
theorem returned_org_owned_by_account {σ : Type} (s : service σ) (st : σ)
    (email password firstName lastName orgName : String) (account : Account)
    (org : Organisation)
    (howner : ∀ input created st1, s.store.CreateOwnerAccount st input = .ok (created, st1) →
      created.org.OwnerID = created.account.ID)
    (h : (CreateAdminUserWithNewOrganisation s email password firstName lastName orgName st).res =
      .ok (account, org)) :
    org.OwnerID = account.ID ∧
    ∃ input created st1, s.store.CreateOwnerAccount st input = .ok (created, st1) ∧
      account = created.account ∧
      org.ID = created.org.ID ∧ org.Description = created.org.Description ∧
      org.Avatar = created.org.Avatar ∧ org.OwnerID = created.org.OwnerID := by
  obtain ⟨_, created, st1, _, _, hc, hacc, horg, _⟩ :=
    newOrganisation_ok s st email password firstName lastName orgName account org h
  have ho := howner _ created st1 hc
  refine ⟨?_, _, created, st1, hc, hacc, ?_, ?_, ?_, ?_⟩
  · rw [horg, hacc]; exact ho
  all_goals rw [horg]

/-- Witness of C7 on the empty reference store, whose owner-account primitive
returns an organisation owned by the account it returns. -/
theorem returned_org_owned_by_account_witness :
    (Organisation.mk "o" "Acme" none none "a").OwnerID =
      (Account.mk "a" "Jane Doe" "Jane" "Doe").ID ∧
    ∃ input created st1, memStore.CreateOwnerAccount emptyState input = .ok (created, st1) ∧
      Account.mk "a" "Jane Doe" "Jane" "Doe" = created.account ∧
      (Organisation.mk "o" "Acme" none none "a").ID = created.org.ID ∧
      (Organisation.mk "o" "Acme" none none "a").Description = created.org.Description ∧
      (Organisation.mk "o" "Acme" none none "a").Avatar = created.org.Avatar ∧
      (Organisation.mk "o" "Acme" none none "a").OwnerID = created.org.OwnerID :=
  returned_org_owned_by_account (memService noBootstrap) emptyState "a@x.com" "pw" "Jane" "Doe"
    "Acme" ⟨"a", "Jane Doe", "Jane", "Doe"⟩ ⟨"o", "Acme", none, none, "a"⟩
    (by
      intro input created st1 hc
      simp only [memService, memStore, MemState.createOwnerAccount] at hc
      split at hc
      · simp at hc
      · simp only [Except.ok.injEq, Prod.mk.injEq] at hc
        rw [← hc.1])
    rfl

/-! ## Bootstrap -/

/-- C8: with an empty bootstrap admin email, `BootstrapAdmin` returns success,
leaves the store as it was and makes no collaborator call at all, whatever the
other configured fields and the store are. -/
theorem bootstrap_disabled_is_noop {σ : Type} (s : service σ) (st : σ)
    (h : s.cfg.BootstrapAdminEmail = "") :
    BootstrapAdmin s st = ⟨.ok (), st, []⟩ := by
  simp only [BootstrapAdmin, h, ↓reduceIte]

/-- Witness of C8: bootstrap is disabled in `noBootstrap`. -/
theorem bootstrap_disabled_is_noop_witness :
    (memService noBootstrap).cfg.BootstrapAdminEmail = "" ∧
    BootstrapAdmin (memService noBootstrap) acmeState = ⟨.ok (), acmeState, []⟩ :=
  ⟨rfl, bootstrap_disabled_is_noop (memService noBootstrap) acmeState rfl⟩

/-- C9, as stated, fails: with a non-empty admin email, a non-empty password
and a store obeying the duplicate-email law, two `BootstrapAdmin` calls in
sequence need not provision at all.  When the hasher rejects the configured
secret the first call fails, and the second call fails in the same way instead
of returning success. -/
theorem bootstrap_twice_hash_failure :
    longSecretBootstrap.BootstrapAdminEmail ≠ "" ∧
    longSecretBootstrap.BootstrapAdminPassword ≠ "" ∧
    RegistersEmail (memService longSecretBootstrap).store ∧
    (BootstrapAdmin (memService longSecretBootstrap) emptyState).res =
      .error (.wrapf "failed to hash password"
        (.raised .internal "password length exceeds 72 bytes")) ∧
    (BootstrapAdmin (memService longSecretBootstrap)
        (BootstrapAdmin (memService longSecretBootstrap) emptyState).st).res =
      .error (.wrapf "failed to hash password"
        (.raised .internal "password length exceeds 72 bytes")) ∧
    ((BootstrapAdmin (memService longSecretBootstrap) emptyState).log ++
      (BootstrapAdmin (memService longSecretBootstrap)
        (BootstrapAdmin (memService longSecretBootstrap) emptyState).st).log).countP
      Call.isProvision = 0 := by
  refine ⟨by decide, by decide, memStore_registersEmail, rfl, rfl, rfl⟩

/-- C9, amended: with a non-empty admin email, a non-empty password and a store
obeying the duplicate-email law, if the first `BootstrapAdmin` call returns
success then the second call returns success, leaves the store exactly as the
first call left it and makes no call but the existence query; and when the
email was unused before the first call, the two calls together provision
exactly once. -/
theorem bootstrap_twice_provisions_once {σ : Type} (s : service σ)
    (hlaw : RegistersEmail s.store) (st : σ)
    (hemail : s.cfg.BootstrapAdminEmail ≠ "")
    (hpassword : s.cfg.BootstrapAdminPassword ≠ "")
    (hfirst : (BootstrapAdmin s st).res = .ok ()) :
    BootstrapAdmin s (BootstrapAdmin s st).st =
      ⟨.ok (), (BootstrapAdmin s st).st,
        [.LoginCredentialsUserEmailExists s.cfg.BootstrapAdminEmail]⟩ ∧
    (s.store.LoginCredentialsUserEmailExists st s.cfg.BootstrapAdminEmail = .ok false →
      ((BootstrapAdmin s st).log ++ (BootstrapAdmin s (BootstrapAdmin s st).st).log).countP
        Call.isProvision = 1) := by
  have hreg : s.store.LoginCredentialsUserEmailExists (BootstrapAdmin s st).st
      s.cfg.BootstrapAdminEmail = .ok true ∧
      (s.store.LoginCredentialsUserEmailExists st s.cfg.BootstrapAdminEmail = .ok false →
        (BootstrapAdmin s st).log.countP Call.isProvision = 1) := by
    cases he : s.store.LoginCredentialsUserEmailExists st s.cfg.BootstrapAdminEmail with
    | error err => simp [BootstrapAdmin, hemail, he] at hfirst
    | ok b =>
    cases b with
    | true =>
      refine ⟨?_, by simp⟩
      simp only [BootstrapAdmin, hemail, ↓reduceIte, he]
    | false =>
      cases hr : (CreateAdminUserWithNewOrganisation s s.cfg.BootstrapAdminEmail
          s.cfg.BootstrapAdminPassword (bootstrapNames s.cfg.BootstrapAdminName).1
          (bootstrapNames s.cfg.BootstrapAdminName).2
          (bootstrapOrgName s.cfg.BootstrapAdminOrgName) st).res with
      | error err => simp [BootstrapAdmin, hemail, hpassword, he, hr] at hfirst
      | ok r =>
        have h1 := newOrganisation_registers s hlaw st _ _ _ _ _ r hr
        have h2 := newOrganisation_provisions_once s st _ _ _ _ _ r hr
        refine ⟨?_, fun _ => ?_⟩
        · simpa [BootstrapAdmin, hemail, hpassword, he, hr] using h1
        · simpa [BootstrapAdmin, hemail, hpassword, he, hr, List.countP_cons,
            Call.isProvision] using h2
  obtain ⟨hreg, hcount⟩ := hreg
  have hsecond : BootstrapAdmin s (BootstrapAdmin s st).st =
      ⟨.ok (), (BootstrapAdmin s st).st,
        [.LoginCredentialsUserEmailExists s.cfg.BootstrapAdminEmail]⟩ := by
    generalize (BootstrapAdmin s st).st = st1 at hreg ⊢
    simp only [BootstrapAdmin, hemail, ↓reduceIte, hreg]
  refine ⟨hsecond, fun hunused => ?_⟩
  rw [hsecond, List.countP_append, hcount hunused]
  rfl

/-- Witness of the amended C9: bootstrapping the empty reference store twice
with `janeBootstrap`. -/
theorem bootstrap_twice_provisions_once_witness :
    (BootstrapAdmin (memService janeBootstrap) emptyState).res = .ok () ∧
    BootstrapAdmin (memService janeBootstrap)
        (BootstrapAdmin (memService janeBootstrap) emptyState).st =
      ⟨.ok (), (BootstrapAdmin (memService janeBootstrap) emptyState).st,
        [.LoginCredentialsUserEmailExists "admin@x.com"]⟩ ∧
    (memStore.LoginCredentialsUserEmailExists emptyState "admin@x.com" = .ok false →
      ((BootstrapAdmin (memService janeBootstrap) emptyState).log ++
        (BootstrapAdmin (memService janeBootstrap)
          (BootstrapAdmin (memService janeBootstrap) emptyState).st).log).countP
        Call.isProvision = 1) :=
  ⟨rfl, bootstrap_twice_provisions_once (memService janeBootstrap) memStore_registersEmail
    emptyState (by decide) (by decide) rfl⟩

/-! ## Duplicate emails -/

/-- C10, as stated, fails in one respect: after Bob Roe has been added to
`Acme`, a second creation with his email is refused, but the error returned is
the untyped duplicate-email error, whose kind is not Conflict. -/
theorem second_creation_error_is_untyped :
    RegistersEmail (memService noBootstrap).store ∧
    acmeOutcome.res = .ok ⟨"a0", "Bob Roe", "Bob", "Roe"⟩ ∧
    (CreateAdminUser (memService noBootstrap) "bob@acme.io" "pw2" "B" "R" "o"
        acmeOutcome.st).res = .error (errUserExists "bob@acme.io") ∧
    (CreateAdminUserWithNewOrganisation (memService noBootstrap) "bob@acme.io" "pw2" "B" "R"
        "Org2" acmeOutcome.st).res = .error (errUserExists "bob@acme.io") ∧
    Error.kind (errUserExists "bob@acme.io") = none ∧
    Error.kind (errUserExists "bob@acme.io") ≠ some .conflict := by
  refine ⟨memStore_registersEmail, rfl, rfl, rfl, rfl, ?_⟩
  decide

/-- C10, amended: in a store obeying the duplicate-email law (a successful
`CreateOwnerAccount` registers the email, and the organisation and membership
primitives leave a registered email registered), after either creation
operation has succeeded for an email, calling either of them again with that
email (and any other arguments) fails with the error "user with email <email>
already exists", which carries no kind, and that second call creates nothing:
it leaves the store as the first call left it and makes no call but the
existence query. -/
theorem second_creation_is_refused {σ : Type} (s : service σ)
    (hlaw : RegistersEmail s.store) (st : σ)
    (email password firstName lastName organisationID orgName : String)
    (password2 firstName2 lastName2 organisationID2 orgName2 : String) :
    (∀ account,
      (CreateAdminUser s email password firstName lastName organisationID st).res =
        .ok account →
      CreateAdminUser s email password2 firstName2 lastName2 organisationID2
          (CreateAdminUser s email password firstName lastName organisationID st).st =
        conflictOutcome email
          (CreateAdminUser s email password firstName lastName organisationID st).st ∧
      CreateAdminUserWithNewOrganisation s email password2 firstName2 lastName2 orgName2
          (CreateAdminUser s email password firstName lastName organisationID st).st =
        conflictOutcome email
          (CreateAdminUser s email password firstName lastName organisationID st).st) ∧
    (∀ r,
      (CreateAdminUserWithNewOrganisation s email password firstName lastName orgName st).res =
        .ok r →
      CreateAdminUser s email password2 firstName2 lastName2 organisationID2
          (CreateAdminUserWithNewOrganisation s email password firstName lastName orgName
            st).st =
        conflictOutcome email
          (CreateAdminUserWithNewOrganisation s email password firstName lastName orgName
            st).st ∧
      CreateAdminUserWithNewOrganisation s email password2 firstName2 lastName2 orgName2
          (CreateAdminUserWithNewOrganisation s email password firstName lastName orgName
            st).st =
        conflictOutcome email
          (CreateAdminUserWithNewOrganisation s email password firstName lastName orgName
            st).st) ∧
    (∀ st2 : σ, (conflictOutcome email st2 : Outcome σ Account).res =
      .error (errUserExists email)) ∧
    (errUserExists email).text = "user with email " ++ email ++ " already exists" ∧
    (errUserExists email).kind = none := by
  refine ⟨?_, ?_, fun _ => rfl, rfl, rfl⟩
  · intro account h
    exact conflict_of_registered s _ email password2 firstName2 lastName2 organisationID2
      orgName2 (CreateAdminUser_registers s hlaw st _ _ _ _ _ account h)
  · intro r h
    exact conflict_of_registered s _ email password2 firstName2 lastName2 organisationID2
      orgName2 (newOrganisation_registers s hlaw st _ _ _ _ _ r h)

/-- Witness of the amended C10: after Bob Roe has been added to `Acme`, both
creation operations refuse his email. -/
theorem second_creation_is_refused_witness :
    RegistersEmail (memService noBootstrap).store ∧
    acmeOutcome.res = .ok ⟨"a0", "Bob Roe", "Bob", "Roe"⟩ ∧
    (CreateAdminUser (memService noBootstrap) "bob@acme.io" "pw2" "B" "R" "o" acmeOutcome.st =
      conflictOutcome "bob@acme.io" acmeOutcome.st ∧
    CreateAdminUserWithNewOrganisation (memService noBootstrap) "bob@acme.io" "pw2" "B" "R"
        "Org2" acmeOutcome.st =
      conflictOutcome "bob@acme.io" acmeOutcome.st) :=
  ⟨memStore_registersEmail, rfl,
    (second_creation_is_refused (memService noBootstrap) memStore_registersEmail acmeState
      "bob@acme.io" "pw" "Bob" "Roe" "o" "Org" "pw2" "B" "R" "o" "Org2").1
      ⟨"a0", "Bob Roe", "Bob", "Roe"⟩ rfl⟩

/-! ## Bootstrap: what is passed to provisioning -/

/-- With an email set, not yet registered, and a password set, `BootstrapAdmin`
provisions: it calls `CreateAdminUserWithNewOrganisation` with the parsed
names and the organisation name, and relays its outcome. -/
theorem bootstrap_provisions {σ : Type} (s : service σ) (st : σ)
    (hemail : s.cfg.BootstrapAdminEmail ≠ "")
    (hunused : s.store.LoginCredentialsUserEmailExists st s.cfg.BootstrapAdminEmail =
      .ok false)
    (hpassword : s.cfg.BootstrapAdminPassword ≠ "") :
    BootstrapAdmin s st =
      relayProvisioning s.cfg.BootstrapAdminEmail
        (CreateAdminUserWithNewOrganisation s s.cfg.BootstrapAdminEmail
          s.cfg.BootstrapAdminPassword (bootstrapNames s.cfg.BootstrapAdminName).1
          (bootstrapNames s.cfg.BootstrapAdminName).2
          (bootstrapOrgName s.cfg.BootstrapAdminOrgName) st) := by
  simp only [BootstrapAdmin, hemail, ↓reduceIte, hunused, hpassword, relayProvisioning]
  split <;> rename_i h <;> simp [h]

/-- The empty name has no fields. -/
theorem Fields_empty : Fields "" = [] := rfl

/-- The names parsed from a name with at least two fields. -/
theorem bootstrapNames_many (adminName first second : String) (rest : List String)
    (h : Fields adminName = first :: second :: rest) :
    bootstrapNames adminName = (first, Join (second :: rest) " ") := by
  have hne : adminName ≠ "" := by
    intro h0
    rw [h0, Fields_empty] at h
    cases h
  simp [bootstrapNames, hne, h]

/-- The names parsed from a name with exactly one field. -/
theorem bootstrapNames_one (adminName first : String) (h : Fields adminName = [first]) :
    bootstrapNames adminName = (first, "User") := by
  have hne : adminName ≠ "" := by
    intro h0
    rw [h0, Fields_empty] at h
    cases h
  simp [bootstrapNames, hne, h]

/-- The names parsed from a name with no field. -/
theorem bootstrapNames_none (adminName : String) (h : Fields adminName = []) :
    bootstrapNames adminName = ("Admin", "User") := by
  by_cases hne : adminName = ""
  · simp [bootstrapNames, hne]
  · simp [bootstrapNames, hne, h]

/-- C11, as stated, fails: the configured name `Jane` is non-empty and has one
token, so the remaining tokens joined with single spaces are the empty string,
yet `BootstrapAdmin` provisions with last name `User`. -/
theorem one_word_name_keeps_placeholder :
    oneWordBootstrap.BootstrapAdminName ≠ "" ∧
    Fields oneWordBootstrap.BootstrapAdminName = ["Jane"] ∧
    Join [] " " = "" ∧
    bootstrapNames oneWordBootstrap.BootstrapAdminName = ("Jane", "User") ∧
    (BootstrapAdmin (memService oneWordBootstrap) emptyState).log =
      [.LoginCredentialsUserEmailExists "admin@x.com",
        .LoginCredentialsUserEmailExists "admin@x.com", .hashPassword "secret",
        .CreateOwnerAccount (ownerInput "admin@x.com" "hash:secret" "Jane" "User"),
        .UpdateOrganisation (renameInput "o" "Acme")] := by
  refine ⟨by decide, rfl, rfl, rfl, rfl⟩

/-- C11, amended: when `BootstrapAdmin` reaches provisioning with a configured
name that splits on whitespace into at least two tokens, it provisions with
first name = the first token and last name = the remaining tokens joined with
single spaces; with a name of exactly one token the last name stays the
placeholder `User`. -/
theorem bootstrap_splits_name {σ : Type} (s : service σ) (st : σ)
    (hemail : s.cfg.BootstrapAdminEmail ≠ "")
    (hunused : s.store.LoginCredentialsUserEmailExists st s.cfg.BootstrapAdminEmail =
      .ok false)
    (hpassword : s.cfg.BootstrapAdminPassword ≠ "") :
    (∀ first second rest, Fields s.cfg.BootstrapAdminName = first :: second :: rest →
      BootstrapAdmin s st =
        relayProvisioning s.cfg.BootstrapAdminEmail
          (CreateAdminUserWithNewOrganisation s s.cfg.BootstrapAdminEmail
            s.cfg.BootstrapAdminPassword first (Join (second :: rest) " ")
            (bootstrapOrgName s.cfg.BootstrapAdminOrgName) st)) ∧
    (∀ first, Fields s.cfg.BootstrapAdminName = [first] →
      BootstrapAdmin s st =
        relayProvisioning s.cfg.BootstrapAdminEmail
          (CreateAdminUserWithNewOrganisation s s.cfg.BootstrapAdminEmail
            s.cfg.BootstrapAdminPassword first "User"
            (bootstrapOrgName s.cfg.BootstrapAdminOrgName) st)) := by
  have hrun := bootstrap_provisions s st hemail hunused hpassword
  constructor
  · intro first second rest h
    rw [hrun, bootstrapNames_many _ first second rest h]
  · intro first h
    rw [hrun, bootstrapNames_one _ first h]

/-- Witness of the amended C11: the name `Jane Doe` gives first name `Jane` and
last name `Doe`. -/
theorem bootstrap_splits_name_witness :
    Fields janeBootstrap.BootstrapAdminName = ["Jane", "Doe"] ∧
    Join ["Doe"] " " = "Doe" ∧
    BootstrapAdmin (memService janeBootstrap) emptyState =
      relayProvisioning "admin@x.com"
        (CreateAdminUserWithNewOrganisation (memService janeBootstrap) "admin@x.com" "secret"
          "Jane" (Join ["Doe"] " ") (bootstrapOrgName "Acme") emptyState) ∧
    (BootstrapAdmin (memService janeBootstrap) emptyState).log =
      [.LoginCredentialsUserEmailExists "admin@x.com",
        .LoginCredentialsUserEmailExists "admin@x.com", .hashPassword "secret",
        .CreateOwnerAccount (ownerInput "admin@x.com" "hash:secret" "Jane" "Doe"),
        .UpdateOrganisation (renameInput "o" "Acme")] :=
  ⟨rfl, rfl,
    (bootstrap_splits_name (memService janeBootstrap) emptyState (by decide) rfl
      (by decide)).1 "Jane" "Doe" [] rfl, rfl⟩

/-- C12, as stated, fails: with an email set and no password, `BootstrapAdmin`
still asks the store whether the email exists first, and when that query fails
it returns the query's error instead of success. -/
theorem no_password_query_failure :
    noPasswordBootstrap.BootstrapAdminEmail ≠ "" ∧
    noPasswordBootstrap.BootstrapAdminPassword = "" ∧
    BootstrapAdmin (downService noPasswordBootstrap) () =
      ⟨.error (.raised .internal "store unavailable"), (),
        [.LoginCredentialsUserEmailExists "admin@x.com"]⟩ := by
  refine ⟨by decide, rfl, rfl⟩

/-- C12, amended: with a non-empty admin email and an empty admin password,
`BootstrapAdmin` performs no provisioning: the existence query is its only
collaborator call, so no password is hashed and nothing is created, and the
store is left as it was.  It returns success whenever that query answers, and
the query's error when the query fails. -/
theorem no_password_skips_provisioning {σ : Type} (s : service σ) (st : σ)
    (hemail : s.cfg.BootstrapAdminEmail ≠ "")
    (hpassword : s.cfg.BootstrapAdminPassword = "") :
    (∀ b, s.store.LoginCredentialsUserEmailExists st s.cfg.BootstrapAdminEmail = .ok b →
      BootstrapAdmin s st =
        ⟨.ok (), st, [.LoginCredentialsUserEmailExists s.cfg.BootstrapAdminEmail]⟩) ∧
    (∀ e, s.store.LoginCredentialsUserEmailExists st s.cfg.BootstrapAdminEmail = .error e →
      BootstrapAdmin s st =
        ⟨.error e, st, [.LoginCredentialsUserEmailExists s.cfg.BootstrapAdminEmail]⟩) := by
  constructor
  · intro b hb
    cases b <;> simp [BootstrapAdmin, hemail, hb, hpassword]
  · intro e he
    simp [BootstrapAdmin, hemail, he]

/-- Witness of the amended C12 on the empty reference store. -/
theorem no_password_skips_provisioning_witness :
    BootstrapAdmin (memService noPasswordBootstrap) emptyState =
      ⟨.ok (), emptyState, [.LoginCredentialsUserEmailExists "admin@x.com"]⟩ :=
  (no_password_skips_provisioning (memService noPasswordBootstrap) emptyState (by decide)
    rfl).1 false rfl

/-- C15: whenever `BootstrapAdmin` reaches provisioning, it provisions with the
placeholder identity first name `Admin`, last name `User` if no admin name is
configured, and with the organisation name `Default Organization` if no
organisation name is configured; a configured non-empty organisation name is
passed through unchanged. -/
theorem bootstrap_defaults {σ : Type} (s : service σ) (st : σ)
    (hemail : s.cfg.BootstrapAdminEmail ≠ "")
    (hunused : s.store.LoginCredentialsUserEmailExists st s.cfg.BootstrapAdminEmail =
      .ok false)
    (hpassword : s.cfg.BootstrapAdminPassword ≠ "") :
    (s.cfg.BootstrapAdminName = "" →
      BootstrapAdmin s st =
        relayProvisioning s.cfg.BootstrapAdminEmail
          (CreateAdminUserWithNewOrganisation s s.cfg.BootstrapAdminEmail
            s.cfg.BootstrapAdminPassword "Admin" "User"
            (bootstrapOrgName s.cfg.BootstrapAdminOrgName) st)) ∧
    (s.cfg.BootstrapAdminOrgName = "" →
      BootstrapAdmin s st =
        relayProvisioning s.cfg.BootstrapAdminEmail
          (CreateAdminUserWithNewOrganisation s s.cfg.BootstrapAdminEmail
            s.cfg.BootstrapAdminPassword (bootstrapNames s.cfg.BootstrapAdminName).1
            (bootstrapNames s.cfg.BootstrapAdminName).2 "Default Organization" st)) ∧
    (s.cfg.BootstrapAdminOrgName ≠ "" →
      BootstrapAdmin s st =
        relayProvisioning s.cfg.BootstrapAdminEmail
          (CreateAdminUserWithNewOrganisation s s.cfg.BootstrapAdminEmail
            s.cfg.BootstrapAdminPassword (bootstrapNames s.cfg.BootstrapAdminName).1
            (bootstrapNames s.cfg.BootstrapAdminName).2 s.cfg.BootstrapAdminOrgName st)) := by
  have hrun := bootstrap_provisions s st hemail hunused hpassword
  refine ⟨fun hname => ?_, fun horg => ?_, fun horg => ?_⟩
  · rw [hrun, hname]
    rfl
  · rw [hrun, horg]
    rfl
  · rw [hrun]
    simp [bootstrapOrgName, horg]

/-- Witness of C15: a configuration with neither name nor organisation name
provisions Admin User and the Default Organization. -/
theorem bootstrap_defaults_witness :
    BootstrapAdmin (memService bareBootstrap) emptyState =
      relayProvisioning "admin@x.com"
        (CreateAdminUserWithNewOrganisation (memService bareBootstrap) "admin@x.com" "secret"
          "Admin" "User" (bootstrapOrgName "") emptyState) ∧
    (BootstrapAdmin (memService bareBootstrap) emptyState).log =
      [.LoginCredentialsUserEmailExists "admin@x.com",
        .LoginCredentialsUserEmailExists "admin@x.com", .hashPassword "secret",
        .CreateOwnerAccount (ownerInput "admin@x.com" "hash:secret" "Admin" "User"),
        .UpdateOrganisation (renameInput "o" "Default Organization")] :=
  ⟨(bootstrap_defaults (memService bareBootstrap) emptyState (by decide) rfl (by decide)).1 rfl,
    rfl⟩

/-! ## Error propagation -/

/-- The member-transfer loop fails only with a wrapped error of
`AddOrganisationMember`. -/
theorem transferMembers_error {σ : Type} (s : service σ) (accountID newOrgID : String)
    (members : List AccountRole) :
    ∀ st err, (transferMembers s accountID newOrgID members st).res = .error err →
      Wraps s err := by
  induction members with
  | nil => intro st err h; simp [transferMembers] at h
  | cons member rest ih =>
    intro st err h
    by_cases hm : member.AccountID = accountID
    · simp only [transferMembers, ne_eq, hm, not_true_eq_false, ↓reduceIte] at h
      exact ih st err h
    · simp only [transferMembers, ne_eq, hm, not_false_eq_true, ↓reduceIte] at h
      split at h
      · rename_i e hadd
        simp only [Except.error.injEq] at h
        subst h
        exact ⟨_, e, rfl, by decide,
          Or.inr (Or.inr (Or.inr (Or.inr (Or.inl ⟨st, _, hadd⟩)))), rfl, rfl⟩
      · rename_i role st1 hadd
        exact ih st1 err h

/-- Every error of `CreateAdminUser` is its own duplicate-email error or a
wrapped collaborator error. -/
theorem CreateAdminUser_error {σ : Type} (s : service σ) (st : σ)
    (email password firstName lastName organisationID : String) (err : Error)
    (h : (CreateAdminUser s email password firstName lastName organisationID st).res =
      .error err) :
    (err = errUserExists email ∧
      s.store.LoginCredentialsUserEmailExists st email = .ok true) ∨ Wraps s err := by
  cases he : s.store.LoginCredentialsUserEmailExists st email with
  | error e =>
    simp only [CreateAdminUser, he, Except.error.injEq] at h
    subst h
    exact Or.inr ⟨_, e, rfl, by decide, Or.inl ⟨st, email, he⟩, rfl, rfl⟩
  | ok b =>
  cases b with
  | true =>
    simp only [CreateAdminUser, he, Except.error.injEq] at h
    exact Or.inl ⟨h.symm, rfl⟩
  | false =>
  right
  cases hh : s.hashPassword password with
  | error e =>
    simp only [CreateAdminUser, he, hh, Except.error.injEq] at h
    subst h
    exact ⟨_, e, rfl, by decide, Or.inr (Or.inl ⟨password, hh⟩), rfl, rfl⟩
  | ok hashed =>
  cases hg : s.store.GetOrganisation st organisationID with
  | error e =>
    simp only [CreateAdminUser, he, hh, hg, Except.error.injEq] at h
    subst h
    exact ⟨_, e, rfl, by decide, Or.inr (Or.inr (Or.inl ⟨st, _, hg⟩)), rfl, rfl⟩
  | ok org =>
  cases hc : s.store.CreateOwnerAccount st (ownerInput email hashed firstName lastName) with
  | error e =>
    simp only [CreateAdminUser, he, hh, hg, hc, Except.error.injEq] at h
    subst h
    exact ⟨_, e, rfl, by decide, Or.inr (Or.inr (Or.inr (Or.inl ⟨st, _, hc⟩))), rfl, rfl⟩
  | ok p =>
  obtain ⟨created, st1⟩ := p
  by_cases hne : created.accountRole.OrganisationID = organisationID
  · simp [CreateAdminUser, he, hh, hg, hc, hne] at h
  · cases hadd : s.store.AddOrganisationMember st1
        (adminInput organisationID created.account.ID) with
    | error e =>
      simp only [CreateAdminUser, he, hh, hg, hc, ne_eq, hne, not_false_eq_true, ↓reduceIte,
        hadd, Except.error.injEq] at h
      subst h
      exact ⟨_, e, rfl, by decide,
        Or.inr (Or.inr (Or.inr (Or.inr (Or.inl ⟨st1, _, hadd⟩)))), rfl, rfl⟩
    | ok p2 =>
    obtain ⟨role, st2⟩ := p2
    by_cases hown : org.OwnerID = ""
    · cases hco : s.store.CreateOrganisation st2
          (replacementInput org created.account.ID) with
      | error e =>
        simp only [CreateAdminUser, he, hh, hg, hc, ne_eq, hne, not_false_eq_true, ↓reduceIte,
          hadd, hown, copy_option, hco, Except.error.injEq] at h
        subst h
        exact ⟨_, e, rfl, by decide,
          Or.inr (Or.inr (Or.inr (Or.inr (Or.inr (Or.inl ⟨st2, _, hco⟩))))), rfl, rfl⟩
      | ok p3 =>
      obtain ⟨newOrg, st3⟩ := p3
      cases hl : s.store.ListOrganisationMembers st3 organisationID with
      | error e =>
        simp only [CreateAdminUser, he, hh, hg, hc, ne_eq, hne, not_false_eq_true, ↓reduceIte,
          hadd, hown, copy_option, hco, hl, Except.error.injEq] at h
        subst h
        exact ⟨_, e, rfl, by decide,
          Or.inr (Or.inr (Or.inr (Or.inr (Or.inr (Or.inr (Or.inl ⟨st3, _, hl⟩)))))), rfl, rfl⟩
      | ok members =>
      cases ht : (transferMembers s created.account.ID newOrg.ID members st3).res with
      | error e =>
        simp only [CreateAdminUser, he, hh, hg, hc, ne_eq, hne, not_false_eq_true, ↓reduceIte,
          hadd, hown, copy_option, hco, hl, ht, Except.error.injEq] at h
        subst h
        exact transferMembers_error s _ _ members st3 e ht
      | ok u =>
        simp [CreateAdminUser, he, hh, hg, hc, hne, hadd, hown, copy_option, hco, hl, ht] at h
    · simp [CreateAdminUser, he, hh, hg, hc, hne, hadd, hown] at h

/-- Every error of `CreateAdminUserWithNewOrganisation` is its own
duplicate-email error or a wrapped collaborator error. -/
theorem newOrganisation_error {σ : Type} (s : service σ) (st : σ)
    (email password firstName lastName orgName : String) (err : Error)
    (h : (CreateAdminUserWithNewOrganisation s email password firstName lastName orgName st).res =
      .error err) :
    (err = errUserExists email ∧
      s.store.LoginCredentialsUserEmailExists st email = .ok true) ∨ Wraps s err := by
  cases he : s.store.LoginCredentialsUserEmailExists st email with
  | error e =>
    simp only [CreateAdminUserWithNewOrganisation, he, Except.error.injEq] at h
    subst h
    exact Or.inr ⟨_, e, rfl, by decide, Or.inl ⟨st, email, he⟩, rfl, rfl⟩
  | ok b =>
  cases b with
  | true =>
    simp only [CreateAdminUserWithNewOrganisation, he, Except.error.injEq] at h
    exact Or.inl ⟨h.symm, rfl⟩
  | false =>
  right
  cases hh : s.hashPassword password with
  | error e =>
    simp only [CreateAdminUserWithNewOrganisation, he, hh, Except.error.injEq] at h
    subst h
    exact ⟨_, e, rfl, by decide, Or.inr (Or.inl ⟨password, hh⟩), rfl, rfl⟩
  | ok hashed =>
  cases hc : s.store.CreateOwnerAccount st (ownerInput email hashed firstName lastName) with
  | error e =>
    simp only [CreateAdminUserWithNewOrganisation, he, hh, hc, Except.error.injEq] at h
    subst h
    exact ⟨_, e, rfl, by decide, Or.inr (Or.inr (Or.inr (Or.inl ⟨st, _, hc⟩))), rfl, rfl⟩
  | ok p =>
  obtain ⟨created, st1⟩ := p
  by_cases hn : created.org.Name = orgName
  · simp [CreateAdminUserWithNewOrganisation, he, hh, hc, hn] at h
  · cases hu : s.store.UpdateOrganisation st1 (renameInput created.org.ID orgName) with
    | error e =>
      simp only [CreateAdminUserWithNewOrganisation, he, hh, hc, ne_eq, hn, not_false_eq_true,
        ↓reduceIte, hu, Except.error.injEq] at h
      subst h
      exact ⟨_, e, rfl, by decide,
        Or.inr (Or.inr (Or.inr (Or.inr (Or.inr (Or.inr (Or.inr ⟨st1, _, hu⟩)))))), rfl, rfl⟩
    | ok p2 =>
      obtain ⟨renamed, st2⟩ := p2
      simp [CreateAdminUserWithNewOrganisation, he, hh, hc, hn, hu] at h


/-- C13, as stated, fails for `BootstrapAdmin`: when its existence query fails
it returns the store's error as it is, with no context string wrapped around
it. -/
theorem bootstrap_returns_query_error_bare :
    downStore.LoginCredentialsUserEmailExists () janeBootstrap.BootstrapAdminEmail =
      .error (.raised .internal "store unavailable") ∧
    (BootstrapAdmin (downService janeBootstrap) ()).res =
      .error (.raised .internal "store unavailable") ∧
    Error.Unwrap (.raised .internal "store unavailable") = none ∧
    ¬ Wraps (downService janeBootstrap) (.raised .internal "store unavailable") := by
  refine ⟨rfl, rfl, rfl, ?_⟩
  rintro ⟨ctx, e, h, _⟩
  cases h

/-- Every error the three operations return is the duplicate-email error of
the two creation operations, the bare error of the existence query of
`BootstrapAdmin`, or a wrapped collaborator error. -/
theorem errors_are_wrapped_or_own {σ : Type} (s : service σ) (st : σ)
    (email password firstName lastName organisationID orgName : String) :
    (∀ err,
      (CreateAdminUser s email password firstName lastName organisationID st).res =
        .error err →
      (err = errUserExists email ∧
        s.store.LoginCredentialsUserEmailExists st email = .ok true) ∨ Wraps s err) ∧
    (∀ err,
      (CreateAdminUserWithNewOrganisation s email password firstName lastName orgName st).res =
        .error err →
      (err = errUserExists email ∧
        s.store.LoginCredentialsUserEmailExists st email = .ok true) ∨ Wraps s err) ∧
    (∀ err, (BootstrapAdmin s st).res = .error err →
      s.store.LoginCredentialsUserEmailExists st s.cfg.BootstrapAdminEmail = .error err ∨
        Wraps s err) := by
  refine ⟨fun err h => CreateAdminUser_error s st _ _ _ _ _ err h,
    fun err h => newOrganisation_error s st _ _ _ _ _ err h, fun err h => ?_⟩
  by_cases hemail : s.cfg.BootstrapAdminEmail = ""
  · simp [BootstrapAdmin, hemail] at h
  · cases he : s.store.LoginCredentialsUserEmailExists st s.cfg.BootstrapAdminEmail with
    | error e =>
      simp only [BootstrapAdmin, hemail, ↓reduceIte, he, Except.error.injEq] at h
      subst h
      exact Or.inl rfl
    | ok b =>
    cases b with
    | true => simp [BootstrapAdmin, hemail, he] at h
    | false =>
      by_cases hpassword : s.cfg.BootstrapAdminPassword = ""
      · simp [BootstrapAdmin, hemail, he, hpassword] at h
      · rw [bootstrap_provisions s st hemail he hpassword] at h
        simp only [relayProvisioning] at h
        split at h
        · rename_i e hr
          simp only [Except.error.injEq] at h
          subst h
          rcases newOrganisation_error s st _ _ _ _ _ e hr with ⟨_, htrue⟩ | hw
          · rw [he] at htrue
            simp at htrue
          · exact Or.inr hw
        · simp at h

/-! ## The replacement organisation and the member transfer -/

/-- The member-transfer loop calls nothing but `AddOrganisationMember`. -/
theorem transferMembers_log {σ : Type} (s : service σ) (accountID newOrgID : String)
    (members : List AccountRole) :
    ∀ st, ∀ c ∈ (transferMembers s accountID newOrgID members st).log,
      ∃ input, c = .AddOrganisationMember input := by
  induction members with
  | nil => intro st c hc; simp [transferMembers] at hc
  | cons member rest ih =>
    intro st c hc
    by_cases hm : member.AccountID = accountID
    · simp only [transferMembers, ne_eq, hm, not_true_eq_false, ↓reduceIte] at hc
      exact ih st c hc
    · simp only [transferMembers, ne_eq, hm, not_false_eq_true, ↓reduceIte] at hc
      split at hc
      · simp only [List.mem_singleton] at hc
        exact ⟨_, hc⟩
      · rename_i role st1 hadd
        rcases List.mem_cons.mp hc with rfl | hc
        · exact ⟨_, rfl⟩
        · exact ih st1 c hc

/-- C14: whenever `CreateAdminUser` asks the store to create an organisation,
the requested organisation was fetched with an empty owner reference and the
replacement asked for has its content: the same name, the same description and
the same avatar (absent exactly when the original's is absent, equal by value
when present), with owner reference equal to the identifier of the account
`CreateOwnerAccount` has just created. -/
theorem replacement_copies_original {σ : Type} (s : service σ) (st : σ)
    (email password firstName lastName organisationID : String)
    (input : CreateOrganisationInput)
    (h : .CreateOrganisation input ∈
      (CreateAdminUser s email password firstName lastName organisationID st).log) :
    ∃ hashed org created st1,
      s.hashPassword password = .ok hashed ∧
      s.store.GetOrganisation st organisationID = .ok org ∧ org.OwnerID = "" ∧
      s.store.CreateOwnerAccount st (ownerInput email hashed firstName lastName) =
        .ok (created, st1) ∧
      input.Name = org.Name ∧ input.Description = org.Description ∧
      input.Avatar = org.Avatar ∧ input.OwnerID = created.account.ID := by
  cases he : s.store.LoginCredentialsUserEmailExists st email with
  | error e => simp [CreateAdminUser, he] at h
  | ok b =>
  cases b with
  | true => simp [CreateAdminUser, he] at h
  | false =>
  cases hh : s.hashPassword password with
  | error e => simp [CreateAdminUser, he, hh] at h
  | ok hashed =>
  cases hg : s.store.GetOrganisation st organisationID with
  | error e => simp [CreateAdminUser, he, hh, hg] at h
  | ok org =>
  cases hc : s.store.CreateOwnerAccount st (ownerInput email hashed firstName lastName) with
  | error e => simp [CreateAdminUser, he, hh, hg, hc] at h
  | ok p =>
  obtain ⟨created, st1⟩ := p
  by_cases hne : created.accountRole.OrganisationID = organisationID
  · simp [CreateAdminUser, he, hh, hg, hc, hne] at h
  · cases hadd : s.store.AddOrganisationMember st1
        (adminInput organisationID created.account.ID) with
    | error e => simp [CreateAdminUser, he, hh, hg, hc, hne, hadd] at h
    | ok p2 =>
    obtain ⟨role, st2⟩ := p2
    by_cases hown : org.OwnerID = ""
    · have hinput : input = replacementInput org created.account.ID := by
        cases hco : s.store.CreateOrganisation st2
            (replacementInput org created.account.ID) with
        | error e =>
          simpa [CreateAdminUser, he, hh, hg, hc, hne, hadd, hown, copy_option, hco] using h
        | ok p3 =>
        obtain ⟨newOrg, st3⟩ := p3
        cases hl : s.store.ListOrganisationMembers st3 organisationID with
        | error e =>
          simpa [CreateAdminUser, he, hh, hg, hc, hne, hadd, hown, copy_option, hco, hl]
            using h
        | ok members =>
          have hlog := transferMembers_log s created.account.ID newOrg.ID members st3
            (.CreateOrganisation input)
          cases ht : (transferMembers s created.account.ID newOrg.ID members st3).res <;>
          · simp only [CreateAdminUser, he, hh, hg, hc, ne_eq, hne, not_false_eq_true,
              ↓reduceIte, hadd, hown, copy_option, hco, hl, ht, List.mem_append,
              List.mem_cons, Call.CreateOrganisation.injEq, List.mem_nil_iff,
              reduceCtorEq, false_or, or_false] at h
            rcases h with h | h
            · exact h
            · obtain ⟨i, hi⟩ := hlog h
              cases hi
      subst hinput
      exact ⟨hashed, org, created, st1, rfl, rfl, hown, hc, rfl, rfl, rfl, rfl⟩
    · simp [CreateAdminUser, he, hh, hg, hc, hne, hadd, hown] at h

/-- Witness of C14: the replacement asked for the ownerless `Guild`. -/
theorem replacement_copies_original_witness :
    Call.CreateOrganisation ⟨"Guild", "a000", some "a guild", none⟩ ∈ guildOutcome.log ∧
    ∃ hashed org created st1,
      memHashPassword "pw" = .ok hashed ∧
      memStore.GetOrganisation guildState "org" = .ok org ∧ org.OwnerID = "" ∧
      memStore.CreateOwnerAccount guildState (ownerInput "bob@x.io" hashed "Bob" "Roe") =
        .ok (created, st1) ∧
      "Guild" = org.Name ∧ some "a guild" = org.Description ∧
      none = org.Avatar ∧ "a000" = created.account.ID :=
  ⟨by decide, replacement_copies_original (memService noBootstrap) guildState "bob@x.io" "pw"
    "Bob" "Roe" "org" ⟨"Guild", "a000", some "a guild", none⟩ (by decide)⟩

/-- A member-transfer loop that runs to the end has called
`AddOrganisationMember` once for each eligible member, in order. -/
theorem transferMembers_ok_log {σ : Type} (s : service σ) (accountID newOrgID : String)
    (members : List AccountRole) :
    ∀ st, (transferMembers s accountID newOrgID members st).res = .ok () →
      (transferMembers s accountID newOrgID members st).log =
        (eligible accountID members).map
          (fun m => Call.AddOrganisationMember (copyInput newOrgID m)) := by
  induction members with
  | nil => intro st _; simp [transferMembers, eligible]
  | cons member rest ih =>
    intro st h
    by_cases hm : member.AccountID = accountID
    · simp only [transferMembers, ne_eq, hm, not_true_eq_false, ↓reduceIte] at h ⊢
      rw [ih st h]
      simp [eligible, hm]
    · simp only [transferMembers, ne_eq, hm, not_false_eq_true, ↓reduceIte] at h ⊢
      split at h
      · simp at h
      · rename_i role st1 hadd
        simp only [hadd]
        rw [ih st1 h]
        simp [eligible, hm]

/-- The member-transfer loop stops at the first copy that fails: the members
before it have been copied, the failed call is its last call and the members
after it are not touched. -/
theorem transferMembers_stops {σ : Type} (s : service σ) (accountID newOrgID : String)
    (member : AccountRole) (later : List AccountRole) (e : Error)
    (helig : member.AccountID ≠ accountID) (earlier : List AccountRole) :
    ∀ st, (transferMembers s accountID newOrgID earlier st).res = .ok () →
      s.store.AddOrganisationMember (transferMembers s accountID newOrgID earlier st).st
        (copyInput newOrgID member) = .error e →
      transferMembers s accountID newOrgID (earlier ++ member :: later) st =
        ⟨.error (.wrapf "failed to transfer member to new organization" e),
          (transferMembers s accountID newOrgID earlier st).st,
          (transferMembers s accountID newOrgID earlier st).log ++
            [.AddOrganisationMember (copyInput newOrgID member)]⟩ := by
  induction earlier with
  | nil =>
    intro st _ hfail
    simp only [transferMembers] at hfail
    simp [transferMembers, helig, hfail]
  | cons m rest ih =>
    intro st hok hfail
    rw [List.cons_append]
    by_cases hm : m.AccountID = accountID
    · simp only [transferMembers, ne_eq, hm, not_true_eq_false, ↓reduceIte] at hok hfail ⊢
      exact ih st hok hfail
    · simp only [transferMembers, ne_eq, hm, not_false_eq_true, ↓reduceIte] at hok hfail ⊢
      cases hadd : s.store.AddOrganisationMember st (copyInput newOrgID m) with
      | error e2 => simp [hadd] at hok
      | ok p =>
        obtain ⟨role, st1⟩ := p
        simp only [hadd] at hok hfail ⊢
        rw [ih st1 hok hfail]
        simp

/-- C17: during the member migration of `CreateAdminUser` for an ownerless
organisation, if copying an eligible member onto the replacement fails after
the members listed before it were copied, the operation returns the wrapped
error at once and no Account.  The calls made are one `AddOrganisationMember`
for each eligible member listed before it, then the failed one, and none
after; the store is left as the successful calls made it, so the created
account, its admin role on the original organisation and the partly filled
replacement all remain. -/
theorem migration_stops_without_repair {σ : Type} (s : service σ) (st st1 st2 st3 : σ)
    (email password firstName lastName organisationID hashed : String)
    (org newOrg : Organisation) (created : OwnerAccount) (role member : AccountRole)
    (earlier later : List AccountRole) (e : Error)
    (hunused : s.store.LoginCredentialsUserEmailExists st email = .ok false)
    (hhash : s.hashPassword password = .ok hashed)
    (horg : s.store.GetOrganisation st organisationID = .ok org)
    (hownerless : org.OwnerID = "")
    (hcreated : s.store.CreateOwnerAccount st (ownerInput email hashed firstName lastName) =
      .ok (created, st1))
    (hother : created.accountRole.OrganisationID ≠ organisationID)
    (hadmin : s.store.AddOrganisationMember st1 (adminInput organisationID created.account.ID) =
      .ok (role, st2))
    (hreplacement : s.store.CreateOrganisation st2 (replacementInput org created.account.ID) =
      .ok (newOrg, st3))
    (hmembers : s.store.ListOrganisationMembers st3 organisationID =
      .ok (earlier ++ member :: later))
    (helig : member.AccountID ≠ created.account.ID)
    (hearlier : (transferMembers s created.account.ID newOrg.ID earlier st3).res = .ok ())
    (hfail : s.store.AddOrganisationMember
      (transferMembers s created.account.ID newOrg.ID earlier st3).st
      (copyInput newOrg.ID member) = .error e) :
    CreateAdminUser s email password firstName lastName organisationID st =
      ⟨.error (.wrapf "failed to transfer member to new organization" e),
        (transferMembers s created.account.ID newOrg.ID earlier st3).st,
        adminCalls email password hashed firstName lastName organisationID ++
          [.AddOrganisationMember (adminInput organisationID created.account.ID),
            .CreateOrganisation (replacementInput org created.account.ID),
            .ListOrganisationMembers organisationID] ++
          (eligible created.account.ID earlier).map
            (fun m => Call.AddOrganisationMember (copyInput newOrg.ID m)) ++
          [.AddOrganisationMember (copyInput newOrg.ID member)]⟩ := by
  have hstop := transferMembers_stops s created.account.ID newOrg.ID member later e helig
    earlier st3 hearlier hfail
  have hlog := transferMembers_ok_log s created.account.ID newOrg.ID earlier st3 hearlier
  simp [CreateAdminUser, hunused, hhash, horg, hcreated, hother, hadmin, hownerless,
    copy_option, hreplacement, hmembers, hstop, hlog]

/-- Witness of C17: in `doubledGuildState` the second copy of `m1` is refused.
`CreateAdminUser` fails there, having copied the first `m1` row and not `m2`;
Bob Roe's account, his admin role on `Guild` and the replacement `o0000` with
his owner role and the one copied member remain in the store. -/
theorem migration_stops_without_repair_witness :
    doubledGuildOutcome.res =
      .error (.wrapf "failed to transfer member to new organization"
        (.raised .conflict "account is already a member of the organisation")) ∧
    doubledGuildOutcome.st.accounts.map (·.ID) = ["m1", "m2", "a000"] ∧
    doubledGuildOutcome.st.members "org" =
      [⟨"org", "m1", "member"⟩, ⟨"org", "m1", RoleAdmin⟩, ⟨"org", "m2", RoleAdmin⟩,
        ⟨"org", "a000", RoleAdmin⟩] ∧
    doubledGuildOutcome.st.members "o0000" =
      [⟨"o0000", "a000", RoleOwner⟩, ⟨"o0000", "m1", "member"⟩] ∧
    CreateAdminUser (memService noBootstrap) "bob@x.io" "pw" "Bob" "Roe" "org"
        doubledGuildState =
      ⟨.error (.wrapf "failed to transfer member to new organization"
          (.raised .conflict "account is already a member of the organisation")),
        doubledGuildOutcome.st,
        adminCalls "bob@x.io" "pw" "hash:pw" "Bob" "Roe" "org" ++
          [.AddOrganisationMember (adminInput "org" "a000"),
            .CreateOrganisation
              (replacementInput ⟨"org", "Guild", some "a guild", none, ""⟩ "a000"),
            .ListOrganisationMembers "org"] ++
          (eligible "a000" [⟨"org", "m1", "member"⟩]).map
            (fun m => Call.AddOrganisationMember (copyInput "o0000" m)) ++
          [.AddOrganisationMember (copyInput "o0000" ⟨"org", "m1", RoleAdmin⟩)]⟩ :=
  ⟨rfl, rfl, rfl, rfl,
    migration_stops_without_repair (memService noBootstrap) doubledGuildState _ _ _
      "bob@x.io" "pw" "Bob" "Roe" "org" "hash:pw" ⟨"org", "Guild", some "a guild", none, ""⟩
      ⟨"o0000", "Guild", some "a guild", none, "a000"⟩
      ⟨⟨"a000", "Bob Roe", "Bob", "Roe"⟩, ⟨"o000", "Bob Roe", none, none, "a000"⟩,
        ⟨"a000", AuthProviderUsernamePassword, "a000", "bob@x.io", "hash:pw"⟩,
        ⟨"o000", "a000", RoleOwner⟩⟩
      ⟨"org", "a000", RoleAdmin⟩ ⟨"org", "m1", RoleAdmin⟩ [⟨"org", "m1", "member"⟩]
      [⟨"org", "m2", RoleAdmin⟩, ⟨"org", "a000", RoleAdmin⟩]
      (.raised .conflict "account is already a member of the organisation")
      rfl rfl rfl rfl rfl (by decide) rfl rfl rfl (by decide) rfl rfl⟩

/-! ## The rename of the new organisation -/

/-- C16: once `CreateOwnerAccount` has returned an organisation,
`CreateAdminUserWithNewOrganisation` issues a rename exactly when the
store-generated name differs from `orgName`.  If the names are equal no
`UpdateOrganisation` call is made.  If they differ exactly one is made, naming
the created organisation's ID and the new name `orgName`; when it fails the
operation returns the wrapped error and neither Account nor Organisation.  In
a store that keeps what it returns and where a rename takes effect, the
organisation held by the store after a successful run is the one returned, so
the stored and the returned names agree. -/
theorem rename_iff_names_differ {σ : Type} (s : service σ) (st st1 : σ)
    (email password firstName lastName orgName hashed : String) (created : OwnerAccount)
    (hunused : s.store.LoginCredentialsUserEmailExists st email = .ok false)
    (hhash : s.hashPassword password = .ok hashed)
    (hcreated : s.store.CreateOwnerAccount st (ownerInput email hashed firstName lastName) =
      .ok (created, st1)) :
    (created.org.Name = orgName →
      CreateAdminUserWithNewOrganisation s email password firstName lastName orgName st =
        ⟨.ok (created.account, created.org), st1,
          newOrgCalls email password hashed firstName lastName⟩) ∧
    (created.org.Name ≠ orgName →
      (∀ renamed st2,
        s.store.UpdateOrganisation st1 (renameInput created.org.ID orgName) =
          .ok (renamed, st2) →
        CreateAdminUserWithNewOrganisation s email password firstName lastName orgName st =
          ⟨.ok (created.account, { created.org with Name := orgName }), st2,
            newOrgCalls email password hashed firstName lastName ++
              [.UpdateOrganisation (renameInput created.org.ID orgName)]⟩) ∧
      (∀ e,
        s.store.UpdateOrganisation st1 (renameInput created.org.ID orgName) = .error e →
        CreateAdminUserWithNewOrganisation s email password firstName lastName orgName st =
          ⟨.error (.wrapf "failed to update organization name" e), st1,
            newOrgCalls email password hashed firstName lastName ++
              [.UpdateOrganisation (renameInput created.org.ID orgName)]⟩)) ∧
    (KeepsOrganisations s.store →
      ∀ account org,
        (CreateAdminUserWithNewOrganisation s email password firstName lastName orgName
          st).res = .ok (account, org) →
        s.store.GetOrganisation
          (CreateAdminUserWithNewOrganisation s email password firstName lastName orgName
            st).st org.ID = .ok org) := by
  have hsame : created.org.Name = orgName →
      CreateAdminUserWithNewOrganisation s email password firstName lastName orgName st =
        ⟨.ok (created.account, created.org), st1,
          newOrgCalls email password hashed firstName lastName⟩ := by
    intro hn
    simp [CreateAdminUserWithNewOrganisation, hunused, hhash, hcreated, hn]
  have hrenamed : created.org.Name ≠ orgName → ∀ renamed st2,
      s.store.UpdateOrganisation st1 (renameInput created.org.ID orgName) =
        .ok (renamed, st2) →
      CreateAdminUserWithNewOrganisation s email password firstName lastName orgName st =
        ⟨.ok (created.account, { created.org with Name := orgName }), st2,
          newOrgCalls email password hashed firstName lastName ++
            [.UpdateOrganisation (renameInput created.org.ID orgName)]⟩ := by
    intro hn renamed st2 hu
    simp [CreateAdminUserWithNewOrganisation, hunused, hhash, hcreated, hn, hu]
  refine ⟨hsame, fun hn => ⟨hrenamed hn, ?_⟩, ?_⟩
  · intro e hu
    simp [CreateAdminUserWithNewOrganisation, hunused, hhash, hcreated, hn, hu]
  · intro hlaw account org hres
    have hminted := hlaw.minted _ _ _ _ hcreated
    by_cases hn : created.org.Name = orgName
    · rw [hsame hn] at hres ⊢
      simp only [Except.ok.injEq, Prod.mk.injEq] at hres
      rw [← hres.2]
      exact hminted
    · cases hu : s.store.UpdateOrganisation st1 (renameInput created.org.ID orgName) with
      | error e =>
        simp [CreateAdminUserWithNewOrganisation, hunused, hhash, hcreated, hn, hu] at hres
      | ok p =>
        obtain ⟨renamed, st2⟩ := p
        rw [hrenamed hn renamed st2 hu] at hres ⊢
        simp only [Except.ok.injEq, Prod.mk.injEq] at hres
        rw [← hres.2]
        exact hlaw.renamed _ _ _ _ _ _ hu hminted

/-- The reference store keeps the organisations it returns, and its rename
takes effect. -/
theorem memStore_keepsOrganisations : KeepsOrganisations memStore where
  minted := by
    intro st input created st1 hc
    obtain ⟨_, horg, _, hst1⟩ := createOwnerAccount_ok st input created st1 hc
    have hnone : st.organisations.find? (fun o => decide (o.ID = created.org.ID)) = none := by
      rw [List.find?_eq_none]
      intro o ho
      have hmem := org_id_mem_ids st o ho
      have hfresh := freshID_not_mem 'o' st.ids
      rw [horg]
      simp only [decide_eq_true_eq]
      intro heq
      rw [heq] at hmem
      exact hfresh hmem
    simp only [memStore, MemState.getOrganisation]
    rw [hst1]
    simp [List.find?_append, hnone]
  renamed := by
    intro st id name org st1 old hu hold
    simp only [memStore, MemState.updateOrganisation, MemState.getOrganisation] at hu hold ⊢
    split at hold
    · rename_i found hfound
      simp only [Except.ok.injEq] at hold
      subst hold
      rw [hfound] at hu
      simp only [Except.ok.injEq, Prod.mk.injEq] at hu
      rw [← hu.2]
      have hid : found.ID = id := by simpa using List.find?_some hfound
      have hmap : (st.organisations.map (renameOrganisation ⟨id, some name⟩)).find?
          (fun o => decide (o.ID = id)) =
          (st.organisations.find? (fun o => decide (o.ID = id))).map
            (renameOrganisation ⟨id, some name⟩) := by
        have hpred : ((fun o : Organisation => decide (o.ID = id)) ∘
            renameOrganisation ⟨id, some name⟩) = (fun o => decide (o.ID = id)) := by
          funext o
          simp only [Function.comp, renameOrganisation]
          split <;> rfl
        rw [List.find?_map, hpred]
      simp only [hmap, hfound, Option.map_some']
      simp [renameOrganisation, hid]
    · simp at hold

/-- Witness of C16: on the empty reference store the store-generated name
`Jane Doe` differs from `Acme`, so one rename is issued and the store then
holds the organisation that is returned. -/
theorem rename_iff_names_differ_witness :
    CreateAdminUserWithNewOrganisation (memService noBootstrap) "a@x.com" "pw" "Jane" "Doe"
        "Acme" emptyState =
      ⟨.ok (⟨"a", "Jane Doe", "Jane", "Doe"⟩, ⟨"o", "Acme", none, none, "a"⟩),
        { accounts := [⟨"a", "Jane Doe", "Jane", "Doe"⟩],
          credentials := [⟨"a", AuthProviderUsernamePassword, "a", "a@x.com", "hash:pw"⟩],
          organisations := [⟨"o", "Acme", none, none, "a"⟩],
          roles := [⟨"o", "a", RoleOwner⟩] },
        newOrgCalls "a@x.com" "pw" "hash:pw" "Jane" "Doe" ++
          [.UpdateOrganisation (renameInput "o" "Acme")]⟩ ∧
    memStore.GetOrganisation
        (CreateAdminUserWithNewOrganisation (memService noBootstrap) "a@x.com" "pw" "Jane"
          "Doe" "Acme" emptyState).st "o" = .ok ⟨"o", "Acme", none, none, "a"⟩ :=
  ⟨((rename_iff_names_differ (memService noBootstrap) emptyState _ "a@x.com" "pw" "Jane" "Doe"
      "Acme" "hash:pw"
      ⟨⟨"a", "Jane Doe", "Jane", "Doe"⟩, ⟨"o", "Jane Doe", none, none, "a"⟩,
        ⟨"a", AuthProviderUsernamePassword, "a", "a@x.com", "hash:pw"⟩, ⟨"o", "a", RoleOwner⟩⟩
      rfl rfl rfl).2.1 (by decide)).1 ⟨"o", "Acme", none, none, "a"⟩ _ rfl,
    (rename_iff_names_differ (memService noBootstrap) emptyState _ "a@x.com" "pw" "Jane" "Doe"
      "Acme" "hash:pw"
      ⟨⟨"a", "Jane Doe", "Jane", "Doe"⟩, ⟨"o", "Jane Doe", none, none, "a"⟩,
        ⟨"a", AuthProviderUsernamePassword, "a", "a@x.com", "hash:pw"⟩, ⟨"o", "a", RoleOwner⟩⟩
      rfl rfl rfl).2.2 memStore_keepsOrganisations ⟨"a", "Jane Doe", "Jane", "Doe"⟩
      ⟨"o", "Acme", none, none, "a"⟩ rfl⟩

/-! ## Configuration -/

/-- C20: given that the configuration was read and unmarshalled without error,
`New` fails with "encryption key is required in production environment" if and
only if the environment equals "production" and the encryption key equals the
built-in default key; in every other case it returns the configuration (with
an empty provider map); and `IsProduction` is true exactly when `Environment`
is the string "production". -/
theorem New_rejects_default_key_in_production (read : ReadInConfig) (cfg : Config)
    (hread : ∀ err, read ≠ .failed err) :
    (New read (.ok cfg) =
        .error (.errorf "encryption key is required in production environment") ↔
      cfg.Environment = "production" ∧
        cfg.EncryptionKey = "must-be-something-else-in-prod") ∧
    (¬ (cfg.Environment = "production" ∧
        cfg.EncryptionKey = "must-be-something-else-in-prod") →
      New read (.ok cfg) = .ok { cfg with Oauth2AuthProviders := [] }) ∧
    (cfg.IsProduction = true ↔ cfg.Environment = "production") := by
  have hnew : New read (.ok cfg) =
      if cfg.Environment = "production" then
        if cfg.EncryptionKey = "must-be-something-else-in-prod" then
          .error (.errorf "encryption key is required in production environment")
        else .ok { cfg with Oauth2AuthProviders := [] }
      else .ok { cfg with Oauth2AuthProviders := [] } := by
    cases read with
    | failed err => exact absurd rfl (hread err)
    | ok => simp [New, Config.IsProduction, EnvironmentProduction, defaultEncryptionKey]
    | configFileNotFound =>
      simp [New, Config.IsProduction, EnvironmentProduction, defaultEncryptionKey]
  refine ⟨?_, ?_, by simp [Config.IsProduction, EnvironmentProduction]⟩
  · rw [hnew]
    by_cases henv : cfg.Environment = "production" <;>
      by_cases hkey : cfg.EncryptionKey = "must-be-something-else-in-prod" <;>
      simp [henv, hkey]
  · intro hnot
    rw [hnew]
    by_cases henv : cfg.Environment = "production"
    · have hkey : cfg.EncryptionKey ≠ "must-be-something-else-in-prod" :=
        fun hkey => hnot ⟨henv, hkey⟩
      simp [henv, hkey]
    · simp [henv]

/-- Witness of C20: with no `.env` file, a production configuration that still
carries the built-in key is refused. -/
theorem New_rejects_default_key_in_production_witness :
    New .configFileNotFound (.ok unsafeProduction) =
      .error (.errorf "encryption key is required in production environment") ∧
    (New .configFileNotFound (.ok unsafeProduction) =
        .error (.errorf "encryption key is required in production environment") ↔
      unsafeProduction.Environment = "production" ∧
        unsafeProduction.EncryptionKey = "must-be-something-else-in-prod") ∧
    (¬ (unsafeProduction.Environment = "production" ∧
        unsafeProduction.EncryptionKey = "must-be-something-else-in-prod") →
      New .configFileNotFound (.ok unsafeProduction) =
        .ok { unsafeProduction with Oauth2AuthProviders := [] }) ∧
    (unsafeProduction.IsProduction = true ↔ unsafeProduction.Environment = "production") :=
  ⟨rfl, New_rejects_default_key_in_production .configFileNotFound unsafeProduction
    (fun err h => by cases h)⟩

/-! ## Fields and joins -/

/-- A token: not empty and free of whitespace. -/
theorem fieldsAux_tokens (cs : List Char) :
    ∀ cur : List Char, (∀ c ∈ cur, isSpace c = false) →
      ∀ t ∈ fieldsAux cs cur, t ≠ [] ∧ ∀ c ∈ t, isSpace c = false := by
  induction cs with
  | nil =>
    intro cur hcur t ht
    by_cases hc : cur = []
    · simp [fieldsAux, hc] at ht
    · simp only [fieldsAux, List.isEmpty_iff, hc, ↓reduceIte, List.mem_singleton] at ht
      subst ht
      exact ⟨by simpa using hc, fun c hmem => hcur c (List.mem_reverse.mp hmem)⟩
  | cons c cs ih =>
    intro cur hcur t ht
    by_cases hs : isSpace c = true
    · by_cases hc : cur = []
      · simp only [fieldsAux, hs, ↓reduceIte, hc, List.isEmpty_nil] at ht
        exact ih [] (by simp) t ht
      · simp only [fieldsAux, hs, ↓reduceIte, List.isEmpty_iff, hc, List.mem_cons] at ht
        rcases ht with rfl | ht
        · exact ⟨by simpa using hc, fun c hmem => hcur c (List.mem_reverse.mp hmem)⟩
        · exact ih [] (by simp) t ht
    · simp only [fieldsAux, hs, Bool.false_eq_true, ↓reduceIte] at ht
      refine ih (c :: cur) ?_ t ht
      intro d hd
      rcases List.mem_cons.mp hd with rfl | hd
      · simpa using hs
      · exact hcur d hd

/-- Every field of a string is non-empty and free of whitespace. -/
theorem Fields_tokens (s : String) :
    ∀ t ∈ Fields s, t ≠ "" ∧ ∀ c ∈ t.data, isSpace c = false := by
  intro t ht
  simp only [Fields, List.mem_map] at ht
  obtain ⟨cs, hcs, rfl⟩ := ht
  obtain ⟨hne, hfree⟩ := fieldsAux_tokens s.data [] (by simp) cs hcs
  refine ⟨?_, hfree⟩
  intro h
  apply hne
  have := congrArg String.data h
  simpa using this

/-- The accumulator of `String.intercalate` can be pulled out in front. -/
theorem intercalate_go_append (sep : String) (rest : List String) :
    ∀ x y : String, String.intercalate.go (x ++ y) sep rest =
      x ++ String.intercalate.go y sep rest := by
  induction rest with
  | nil => intro x y; rfl
  | cons a rest ih =>
    intro x y
    simp only [String.intercalate.go]
    rw [← ih x (y ++ sep ++ a)]
    simp [String.append_assoc]

/-- Joining at least two elements: the first, the separator, and the join of
the others. -/
theorem Join_cons_cons (a b : String) (rest : List String) (sep : String) :
    Join (a :: b :: rest) sep = a ++ sep ++ Join (b :: rest) sep := by
  simp only [Join, String.intercalate, String.intercalate.go]
  rw [← intercalate_go_append sep rest (a ++ sep) b]

/-- Joining one element gives the element. -/
theorem Join_singleton (a sep : String) : Join [a] sep = a := rfl

/-- Joining strings with a space is joining their characters with a space. -/
theorem Join_mk (ts : List (List Char)) :
    Join (ts.map String.mk) " " = String.mk (joinChars ts) := by
  induction ts with
  | nil => rfl
  | cons a rest ih =>
    cases rest with
    | nil => rfl
    | cons b rest =>
      rw [List.map_cons, List.map_cons, Join_cons_cons, ← List.map_cons, ih]
      apply String.ext
      simp [joinChars]

/-- Reading a whitespace-free run of characters only extends the field being
read. -/
theorem fieldsAux_run (t : List Char) (ht : ∀ c ∈ t, isSpace c = false) :
    ∀ rest cur, fieldsAux (t ++ rest) cur = fieldsAux rest (t.reverse ++ cur) := by
  induction t with
  | nil => intro rest cur; rfl
  | cons c t ih =>
    intro rest cur
    have hc : isSpace c = false := ht c (List.mem_cons_self _ _)
    show fieldsAux (c :: (t ++ rest)) cur = _
    rw [fieldsAux]
    simp only [hc, Bool.false_eq_true, ↓reduceIte]
    rw [ih (fun d hd => ht d (List.mem_cons_of_mem _ hd))]
    simp

/-- Splitting space-joined tokens gives the tokens back. -/
theorem fieldsAux_joinChars (ts : List (List Char)) :
    (∀ t ∈ ts, t ≠ [] ∧ ∀ c ∈ t, isSpace c = false) → fieldsAux (joinChars ts) [] = ts := by
  induction ts with
  | nil => intro _; rfl
  | cons a rest ih =>
    intro h
    obtain ⟨hane, hafree⟩ := h a (List.mem_cons_self _ _)
    have hrev : a.reverse ≠ [] := by simpa using hane
    cases rest with
    | nil =>
      have := fieldsAux_run a hafree [] []
      simp only [List.append_nil] at this
      simp [joinChars, this, fieldsAux, hrev]
    | cons b rest =>
      have hrest := ih (fun t ht => h t (List.mem_cons_of_mem _ ht))
      have hspace : isSpace ' ' = true := by decide
      rw [joinChars, fieldsAux_run a hafree, List.append_nil]
      simp [fieldsAux, hspace, hrev, hrest]

/-- Space-joined tokens start with a character that is not whitespace. -/
theorem joinChars_head (ts : List (List Char))
    (h : ∀ t ∈ ts, t ≠ [] ∧ ∀ c ∈ t, isSpace c = false) (hne : ts ≠ []) :
    ∃ d r, joinChars ts = d :: r ∧ isSpace d = false := by
  cases ts with
  | nil => exact absurd rfl hne
  | cons a rest =>
    obtain ⟨hane, hafree⟩ := h a (List.mem_cons_self _ _)
    cases a with
    | nil => exact absurd rfl hane
    | cons d a =>
      cases rest with
      | nil => exact ⟨d, a, rfl, hafree d (List.mem_cons_self _ _)⟩
      | cons b rest =>
        exact ⟨d, a ++ ' ' :: joinChars (b :: rest), rfl, hafree d (List.mem_cons_self _ _)⟩

/-- Space-joined tokens end with a character that is not whitespace. -/
theorem joinChars_last (ts : List (List Char)) :
    (∀ t ∈ ts, t ≠ [] ∧ ∀ c ∈ t, isSpace c = false) → ts ≠ [] →
    ∃ d r, (joinChars ts).reverse = d :: r ∧ isSpace d = false := by
  induction ts with
  | nil => intro _ hne; exact absurd rfl hne
  | cons a rest ih =>
    intro h _
    obtain ⟨hane, hafree⟩ := h a (List.mem_cons_self _ _)
    cases rest with
    | nil =>
      cases hrev : a.reverse with
      | nil => exact absurd (by simpa using hrev) hane
      | cons d r =>
        refine ⟨d, r, by simpa [joinChars] using hrev, hafree d ?_⟩
        rw [← List.mem_reverse, hrev]
        exact List.mem_cons_self _ _
    | cons b rest =>
      obtain ⟨d, r, hr, hd⟩ := ih (fun t ht => h t (List.mem_cons_of_mem _ ht)) (by simp)
      refine ⟨d, r ++ ' ' :: a.reverse, ?_, hd⟩
      simp [joinChars, hr]

/-- Collapsing after a whitespace character yields no leading whitespace. -/
theorem collapseRuns_true_dropWhile (cs : List Char) :
    (collapseRuns true cs).dropWhile isSpace = collapseRuns true cs := by
  induction cs with
  | nil => rfl
  | cons c cs ih =>
    by_cases hs : isSpace c = true
    · simpa [collapseRuns, hs] using ih
    · simp [collapseRuns, hs, List.dropWhile]

/-- Removing leading whitespace after collapsing is collapsing as if a
whitespace character came before. -/
theorem collapseRuns_false_dropWhile (cs : List Char) :
    (collapseRuns false cs).dropWhile isSpace = collapseRuns true cs := by
  cases cs with
  | nil => rfl
  | cons c cs =>
    have hspace : isSpace ' ' = true := by decide
    by_cases hs : isSpace c = true
    · simp [collapseRuns, hs, List.dropWhile, hspace, collapseRuns_true_dropWhile]
    · simp [collapseRuns, hs, List.dropWhile]

/-- Collapsing the runs of whitespace yields the fields joined with single
spaces, followed by one space when the text ends in whitespace. -/
theorem collapseRuns_fieldsAux (cs : List Char) :
    ∀ cur : List Char,
      ∃ tl, (tl = [] ∨ (tl = [' '] ∧ fieldsAux cs cur ≠ [])) ∧
        cur.reverse ++ collapseRuns cur.isEmpty cs = joinChars (fieldsAux cs cur) ++ tl := by
  induction cs with
  | nil =>
    intro cur
    refine ⟨[], Or.inl rfl, ?_⟩
    by_cases hc : cur = []
    · simp [hc, collapseRuns, fieldsAux, joinChars]
    · simp [hc, collapseRuns, fieldsAux, joinChars]
  | cons c cs ih =>
    intro cur
    by_cases hs : isSpace c = true
    · obtain ⟨tl, htl, heq⟩ := ih []
      simp only [List.reverse_nil, List.nil_append, List.isEmpty_nil] at heq
      by_cases hc : cur = []
      · refine ⟨tl, ?_, ?_⟩
        · simpa [hc, fieldsAux, hs] using htl
        · simpa [hc, fieldsAux, collapseRuns, hs] using heq
      · have hrev : cur.reverse ≠ [] := by simpa using hc
        cases hw : fieldsAux cs [] with
        | nil =>
          have htl0 : tl = [] := by
            rcases htl with h | ⟨_, h⟩
            · exact h
            · exact absurd hw h
          rw [hw, htl0] at heq
          refine ⟨[' '], Or.inr ⟨rfl, by simp [fieldsAux, hs, hc]⟩, ?_⟩
          simp [fieldsAux, collapseRuns, hs, hc, hw, joinChars, heq]
        | cons t ts =>
          rw [hw] at heq
          refine ⟨tl, ?_, ?_⟩
          · rcases htl with h | ⟨h, _⟩
            · exact Or.inl h
            · exact Or.inr ⟨h, by simp [fieldsAux, hs, hc]⟩
          · simp [fieldsAux, collapseRuns, hs, hc, hw, joinChars, heq]
    · obtain ⟨tl, htl, heq⟩ := ih (c :: cur)
      refine ⟨tl, ?_, ?_⟩
      · simpa [fieldsAux, hs] using htl
      · simpa [fieldsAux, collapseRuns, hs] using heq

/-- The normalised name is the fields of the name joined with single spaces. -/
theorem normalizeName_eq_Join (name : String) :
    normalizeName name = Join (Fields name) " " := by
  rw [Fields, Join_mk, normalizeName]
  congr 1
  obtain ⟨tl, htl, heq⟩ := collapseRuns_fieldsAux name.data []
  simp only [List.reverse_nil, List.nil_append, List.isEmpty_nil] at heq
  have htok := fieldsAux_tokens name.data [] (by simp)
  rw [trimSpaces, collapseRuns_false_dropWhile, heq]
  have hkeep : fieldsAux name.data [] ≠ [] →
      (joinChars (fieldsAux name.data [])).reverse.dropWhile isSpace =
        (joinChars (fieldsAux name.data [])).reverse := by
    intro hne
    obtain ⟨d, r, hr, hd⟩ := joinChars_last _ htok hne
    rw [hr]
    simp [List.dropWhile, hd]
  rcases htl with h | ⟨h, hne⟩
  · subst h
    rw [List.append_nil]
    by_cases hnil : fieldsAux name.data [] = []
    · rw [hnil]
      rfl
    · rw [hkeep hnil, List.reverse_reverse]
  · subst h
    have hspace : isSpace ' ' = true := by decide
    rw [List.reverse_append, List.reverse_singleton, List.singleton_append, List.dropWhile_cons,
      hspace]
    simp only [↓reduceIte]
    rw [hkeep hne, List.reverse_reverse]

/-- Splitting the space-joined fields of a name gives the same fields. -/
theorem Fields_Join_Fields (name : String) :
    Fields (Join (Fields name) " ") = Fields name := by
  have h : Join (Fields name) " " = String.mk (joinChars (fieldsAux name.data [])) := by
    rw [Fields, Join_mk]
  rw [h]
  simp only [Fields]
  rw [fieldsAux_joinChars _ (fieldsAux_tokens name.data [] (by simp))]

/-! ## The names passed to provisioning -/

/-- C18: for every configured admin name, the first and the last name that
`BootstrapAdmin` derives for provisioning are both non-empty, the first name
contains no whitespace at all, and the last name neither starts nor ends with
whitespace; a name with no tokens yields `Admin`, `User` and a name with
exactly one token `t` yields `t`, `User`. -/
theorem parsed_names_are_clean (adminName : String) :
    (bootstrapNames adminName).1 ≠ "" ∧ (bootstrapNames adminName).2 ≠ "" ∧
    (∀ c ∈ (bootstrapNames adminName).1.data, isSpace c = false) ∧
    (∀ c, (bootstrapNames adminName).2.data.head? = some c → isSpace c = false) ∧
    (∀ c, (bootstrapNames adminName).2.data.getLast? = some c → isSpace c = false) ∧
    (Fields adminName = [] → bootstrapNames adminName = ("Admin", "User")) ∧
    (∀ t, Fields adminName = [t] → bootstrapNames adminName = (t, "User")) := by
  have htok := fieldsAux_tokens adminName.data [] (by simp)
  have huser : ("User" : String) ≠ "" ∧
      (∀ c, ("User" : String).data.head? = some c → isSpace c = false) ∧
      (∀ c, ("User" : String).data.getLast? = some c → isSpace c = false) := by
    refine ⟨by decide, ?_, ?_⟩
    · intro c hc
      have : c = 'U' := by simpa using hc.symm
      subst this
      decide
    · intro c hc
      have : c = 'r' := by simpa using hc.symm
      subst this
      decide
  refine ⟨?_, ?_, ?_, ?_, ?_, bootstrapNames_none adminName,
    fun t ht => bootstrapNames_one adminName t ht⟩
  all_goals
    cases hw : fieldsAux adminName.data [] with
    | nil =>
      have hf : Fields adminName = [] := by simp [Fields, hw]
      rw [bootstrapNames_none adminName hf]
      first
        | exact huser.1
        | exact huser.2.1
        | exact huser.2.2
        | decide
    | cons a rest =>
      obtain ⟨hane, hafree⟩ := htok a (by rw [hw]; exact List.mem_cons_self _ _)
      cases rest with
      | nil =>
        have hf : Fields adminName = [String.mk a] := by simp [Fields, hw]
        rw [bootstrapNames_one adminName _ hf]
        first
          | exact huser.1
          | exact huser.2.1
          | exact huser.2.2
          | exact hafree
          | (intro h
             exact hane (by simpa using congrArg String.data h))
      | cons b rest =>
        have hf : Fields adminName =
            String.mk a :: String.mk b :: rest.map String.mk := by simp [Fields, hw]
        have hrest : ∀ t ∈ b :: rest, t ≠ [] ∧ ∀ c ∈ t, isSpace c = false := by
          intro t ht
          exact htok t (by rw [hw]; exact List.mem_cons_of_mem _ ht)
        have hjoin : Join (String.mk b :: rest.map String.mk) " " =
            String.mk (joinChars (b :: rest)) := by
          rw [← List.map_cons, Join_mk]
        obtain ⟨d, r, hr, hd⟩ := joinChars_head (b :: rest) hrest (by simp)
        obtain ⟨d2, r2, hr2, hd2⟩ := joinChars_last (b :: rest) hrest (by simp)
        rw [bootstrapNames_many adminName _ _ _ hf, hjoin]
        first
          | exact hafree
          | (intro h
             exact hane (by simpa using congrArg String.data h))
          | (intro h
             have := congrArg String.data h
             rw [hr] at this
             simp at this)
          | (intro c hc
             rw [hr] at hc
             have : c = d := by simpa using hc.symm
             rw [this]
             exact hd)
          | (intro c hc
             have hlist : joinChars (b :: rest) = r2.reverse ++ [d2] := by
               rw [← List.reverse_reverse (joinChars (b :: rest)), hr2]
               simp
             rw [hlist] at hc
             have : c = d2 := by simpa using hc.symm
             rw [this]
             exact hd2)

/-- C19: for every configured admin name with at least two
whitespace-separated tokens, the full account name that provisioning builds
from the parsed parts, first name, a space, last name, equals the configured
name with every run of whitespace collapsed to a single space and leading and
trailing whitespace removed; and parsing that full name again gives the same
parts, so parsing followed by re-joining is idempotent on such names. -/
theorem full_name_is_normalized (adminName first second : String) (rest : List String)
    (email hashed : String) (h : Fields adminName = first :: second :: rest) :
    (ownerInput email hashed (bootstrapNames adminName).1 (bootstrapNames adminName).2).Name =
      normalizeName adminName ∧
    (bootstrapNames adminName).1 ++ " " ++ (bootstrapNames adminName).2 =
      normalizeName adminName ∧
    bootstrapNames ((bootstrapNames adminName).1 ++ " " ++ (bootstrapNames adminName).2) =
      bootstrapNames adminName ∧
    normalizeName (normalizeName adminName) = normalizeName adminName := by
  have hfull : (bootstrapNames adminName).1 ++ " " ++ (bootstrapNames adminName).2 =
      normalizeName adminName := by
    rw [bootstrapNames_many adminName first second rest h, normalizeName_eq_Join, h,
      Join_cons_cons]
  have hfields : Fields (normalizeName adminName) = first :: second :: rest := by
    rw [normalizeName_eq_Join, Fields_Join_Fields, h]
  refine ⟨hfull, hfull, ?_, ?_⟩
  · rw [hfull, bootstrapNames_many _ first second rest hfields,
      bootstrapNames_many adminName first second rest h]
  · rw [normalizeName_eq_Join (normalizeName adminName), hfields, ← h,
      ← normalizeName_eq_Join]

/-- Witness of C19: a name written with leading, trailing and repeated
whitespace. -/
theorem full_name_is_normalized_witness :
    Fields spacedName = ["Jane", "van", "Doe"] ∧
    normalizeName spacedName = "Jane van Doe" ∧
    bootstrapNames spacedName = ("Jane", "van Doe") ∧
    (ownerInput "admin@x.com" "hash:secret" (bootstrapNames spacedName).1
        (bootstrapNames spacedName).2).Name = normalizeName spacedName ∧
    (bootstrapNames spacedName).1 ++ " " ++ (bootstrapNames spacedName).2 =
      normalizeName spacedName ∧
    bootstrapNames ((bootstrapNames spacedName).1 ++ " " ++ (bootstrapNames spacedName).2) =
      bootstrapNames spacedName ∧
    normalizeName (normalizeName spacedName) = normalizeName spacedName :=
  ⟨by decide, by decide, by decide,
    full_name_is_normalized spacedName "Jane" "van" ["Doe"] "admin@x.com" "hash:secret"
      (by decide)⟩

/-! ## Error propagation, call by call -/

/-- C13, amended: in `CreateAdminUser` and `CreateAdminUserWithNewOrganisation`,
whenever a collaborator call fails (existence query, hashing, GetOrganisation,
CreateOwnerAccount, AddOrganisationMember on the requested organisation,
CreateOrganisation, ListOrganisationMembers, AddOrganisationMember of the
member transfer, UpdateOrganisation) after the calls before it succeeded, the
operation returns that very error wrapped with the context string of the call:
unwrapping gives the collaborator's error back and the kind is unchanged.
`BootstrapAdmin` adds no context of its own: it returns the error of its
existence query as it is, and the error of provisioning exactly as
`CreateAdminUserWithNewOrganisation` returned it.  Conversely every error the
three operations return is such an error or the duplicate-email error of the
two creation operations. -/
theorem collaborator_failures_are_wrapped {σ : Type} (s : service σ) (st : σ)
    (email password firstName lastName organisationID orgName : String) :
    ((∀ e, s.store.LoginCredentialsUserEmailExists st email = .error e →
        WrapsFailure
          (CreateAdminUser s email password firstName lastName organisationID st).res
          "error checking if user exists" e) ∧
      (s.store.LoginCredentialsUserEmailExists st email = .ok false →
        (∀ e, s.hashPassword password = .error e →
          WrapsFailure
            (CreateAdminUser s email password firstName lastName organisationID st).res
            "failed to hash password" e) ∧
        (∀ hashed, s.hashPassword password = .ok hashed →
          (∀ e, s.store.GetOrganisation st organisationID = .error e →
            WrapsFailure
              (CreateAdminUser s email password firstName lastName organisationID st).res
              "failed to get organisation" e) ∧
          (∀ org, s.store.GetOrganisation st organisationID = .ok org →
            (∀ e, s.store.CreateOwnerAccount st
                (ownerInput email hashed firstName lastName) = .error e →
              WrapsFailure
                (CreateAdminUser s email password firstName lastName organisationID st).res
                "failed to create admin user" e) ∧
            (∀ created st1, s.store.CreateOwnerAccount st
                (ownerInput email hashed firstName lastName) = .ok (created, st1) →
              created.accountRole.OrganisationID ≠ organisationID →
              (∀ e, s.store.AddOrganisationMember st1
                  (adminInput organisationID created.account.ID) = .error e →
                WrapsFailure
                  (CreateAdminUser s email password firstName lastName organisationID st).res
                  "failed to create admin role in organization" e) ∧
              (∀ role st2, s.store.AddOrganisationMember st1
                  (adminInput organisationID created.account.ID) = .ok (role, st2) →
                org.OwnerID = "" →
                (∀ e, s.store.CreateOrganisation st2
                    (replacementInput org created.account.ID) = .error e →
                  WrapsFailure
                    (CreateAdminUser s email password firstName lastName organisationID
                      st).res
                    "failed to create organization with new owner" e) ∧
                (∀ newOrg st3, s.store.CreateOrganisation st2
                    (replacementInput org created.account.ID) = .ok (newOrg, st3) →
                  (∀ e, s.store.ListOrganisationMembers st3 organisationID = .error e →
                    WrapsFailure
                      (CreateAdminUser s email password firstName lastName organisationID
                        st).res
                      "failed to list organization members" e) ∧
                  (∀ earlier member later e,
                    s.store.ListOrganisationMembers st3 organisationID =
                      .ok (earlier ++ member :: later) →
                    member.AccountID ≠ created.account.ID →
                    (transferMembers s created.account.ID newOrg.ID earlier st3).res =
                      .ok () →
                    s.store.AddOrganisationMember
                      (transferMembers s created.account.ID newOrg.ID earlier st3).st
                      (copyInput newOrg.ID member) = .error e →
                    WrapsFailure
                      (CreateAdminUser s email password firstName lastName organisationID
                        st).res
                      "failed to transfer member to new organization" e)))))))) ∧
    ((∀ e, s.store.LoginCredentialsUserEmailExists st email = .error e →
        WrapsFailure
          (CreateAdminUserWithNewOrganisation s email password firstName lastName orgName
            st).res
          "error checking if user exists" e) ∧
      (s.store.LoginCredentialsUserEmailExists st email = .ok false →
        (∀ e, s.hashPassword password = .error e →
          WrapsFailure
            (CreateAdminUserWithNewOrganisation s email password firstName lastName orgName
              st).res
            "failed to hash password" e) ∧
        (∀ hashed, s.hashPassword password = .ok hashed →
          (∀ e, s.store.CreateOwnerAccount st
              (ownerInput email hashed firstName lastName) = .error e →
            WrapsFailure
              (CreateAdminUserWithNewOrganisation s email password firstName lastName orgName
                st).res
              "failed to create admin user with organization" e) ∧
          (∀ created st1 e, s.store.CreateOwnerAccount st
              (ownerInput email hashed firstName lastName) = .ok (created, st1) →
            created.org.Name ≠ orgName →
            s.store.UpdateOrganisation st1 (renameInput created.org.ID orgName) = .error e →
            WrapsFailure
              (CreateAdminUserWithNewOrganisation s email password firstName lastName orgName
                st).res
              "failed to update organization name" e)))) ∧
    (s.cfg.BootstrapAdminEmail ≠ "" →
      (∀ e, s.store.LoginCredentialsUserEmailExists st s.cfg.BootstrapAdminEmail = .error e →
        (BootstrapAdmin s st).res = .error e) ∧
      (s.store.LoginCredentialsUserEmailExists st s.cfg.BootstrapAdminEmail = .ok false →
        s.cfg.BootstrapAdminPassword ≠ "" →
        ∀ err,
          (CreateAdminUserWithNewOrganisation s s.cfg.BootstrapAdminEmail
            s.cfg.BootstrapAdminPassword (bootstrapNames s.cfg.BootstrapAdminName).1
            (bootstrapNames s.cfg.BootstrapAdminName).2
            (bootstrapOrgName s.cfg.BootstrapAdminOrgName) st).res = .error err →
          (BootstrapAdmin s st).res = .error err)) ∧
    ((∀ err,
        (CreateAdminUser s email password firstName lastName organisationID st).res =
          .error err →
        (err = errUserExists email ∧
          s.store.LoginCredentialsUserEmailExists st email = .ok true) ∨ Wraps s err) ∧
      (∀ err,
        (CreateAdminUserWithNewOrganisation s email password firstName lastName orgName
          st).res = .error err →
        (err = errUserExists email ∧
          s.store.LoginCredentialsUserEmailExists st email = .ok true) ∨ Wraps s err) ∧
      (∀ err, (BootstrapAdmin s st).res = .error err →
        s.store.LoginCredentialsUserEmailExists st s.cfg.BootstrapAdminEmail = .error err ∨
          Wraps s err)) := by
  refine ⟨⟨?_, fun hq => ⟨?_, fun hashed hh => ⟨?_, fun org hg => ⟨?_,
    fun created st1 hc hne => ⟨?_, fun role st2 ha hown => ⟨?_, fun newOrg st3 hco => ⟨?_, ?_⟩⟩⟩⟩⟩⟩⟩,
    ⟨?_, fun hq => ⟨?_, fun hashed hh => ⟨?_, ?_⟩⟩⟩,
    fun hemail => ⟨?_, ?_⟩, errors_are_wrapped_or_own s st _ _ _ _ _ _⟩
  · intro e he
    simp [WrapsFailure, Error.Unwrap, Error.kind, CreateAdminUser, he]
  · intro e he
    simp [WrapsFailure, Error.Unwrap, Error.kind, CreateAdminUser, hq, he]
  · intro e he
    simp [WrapsFailure, Error.Unwrap, Error.kind, CreateAdminUser, hq, hh, he]
  · intro e he
    simp [WrapsFailure, Error.Unwrap, Error.kind, CreateAdminUser, hq, hh, hg, he]
  · intro e he
    simp [WrapsFailure, Error.Unwrap, Error.kind, CreateAdminUser, hq, hh, hg, hc, hne, he]
  · intro e he
    simp [WrapsFailure, Error.Unwrap, Error.kind, CreateAdminUser, hq, hh, hg, hc, hne, ha,
      hown, copy_option, he]
  · intro e he
    simp [WrapsFailure, Error.Unwrap, Error.kind, CreateAdminUser, hq, hh, hg, hc, hne, ha,
      hown, copy_option, hco, he]
  · intro earlier member later e hl helig hearlier hfail
    have hstop := transferMembers_stops s created.account.ID newOrg.ID member later e helig
      earlier st3 hearlier hfail
    simp [WrapsFailure, Error.Unwrap, Error.kind, CreateAdminUser, hq, hh, hg, hc, hne, ha,
      hown, copy_option, hco, hl, hstop]
  · intro e he
    simp [WrapsFailure, Error.Unwrap, Error.kind, CreateAdminUserWithNewOrganisation, he]
  · intro e he
    simp [WrapsFailure, Error.Unwrap, Error.kind, CreateAdminUserWithNewOrganisation, hq, he]
  · intro e he
    simp [WrapsFailure, Error.Unwrap, Error.kind, CreateAdminUserWithNewOrganisation, hq, hh,
      he]
  · intro created st1 e hc hn hu
    simp [WrapsFailure, Error.Unwrap, Error.kind, CreateAdminUserWithNewOrganisation, hq, hh,
      hc, hn, hu]
  · intro e he
    simp [BootstrapAdmin, hemail, he]
  · intro hq hpassword err hr
    rw [bootstrap_provisions s st hemail hq hpassword]
    simp [relayProvisioning, hr]

/-- Witness of the amended C13: a caller that loses the race on an email passes
the pre-check, `CreateOwnerAccount` reports the uniqueness violation as
Conflict, and the error returned is that error wrapped, still of kind
Conflict. -/
theorem collaborator_failures_are_wrapped_witness :
    raceService.store.LoginCredentialsUserEmailExists acmeState "jane@acme.io" = .ok false ∧
    raceService.store.CreateOwnerAccount acmeState (ownerInput "jane@acme.io" "hash:pw" "J" "D") =
      .error (.raised .conflict "login credentials already exist") ∧
    Error.kind (.raised .conflict "login credentials already exist") = some .conflict ∧
    WrapsFailure
      (CreateAdminUserWithNewOrganisation raceService "jane@acme.io" "pw" "J" "D" "Org"
        acmeState).res
      "failed to create admin user with organization"
      (.raised .conflict "login credentials already exist") :=
  ⟨rfl, rfl, rfl,
    ((((collaborator_failures_are_wrapped raceService acmeState "jane@acme.io" "pw" "J" "D" "o"
      "Org").2.1).2 rfl).2 "hash:pw" rfl).1 _ rfl⟩

end GoKayu
